import Mathlib

/-!
Risk-premia sizing and rebalance engine (`strategy/risk-premia.c`)

A shallow embedding of the decision core of `run` and `rebalance`, and of the
data line written by `writeLog`.

Modelling conventions

* The script type `var` (a double) is embedded as a rational `ℚ`: every
  finite double is a rational.  The sizing lines 221-255 are embedded twice.
  The definitions `theo_size`, `constrained_sizes`, `target_position` read
  their arithmetic as exact; they serve the statements about guards, signs
  and about which branch is taken.  The definitions `theo_size_fl`,
  `constrained_sizes_fl`, `target_position_fl` round the result of every
  operation to the nearest double with `fl`; they serve the statements about
  the numbers the script computes.
* `fl` rounds to a significand of 53 bits, to nearest, a tie to the even
  neighbour, with no bound on the exponent: it is the rounding of the machine
  for results of magnitude between `2^-1022` and `2^1024`.  The statements
  about double arithmetic are made for inputs between `2^-100` and `2^100`
  (or 0) and at most `2^20` assets.  The definitions ending in `_fl_checked`
  repeat lines 207-255 with `fl_checked`, which has no result outside the
  normal range; the statements prove that on these inputs they return the
  result of the definitions ending in `_fl`, so that no intermediate result
  overflows or is subnormal.
* The `int` of line 264 is embedded as a whole number reduced to 32 bits.
* Values of type `var` that the script only ever fills with whole numbers
  (`target_positions[i]`, which is a `floor`, and `current_positions[i]`,
  which is a sum of `int` lots) are embedded as `ℤ`.
* The `#define` constants are fields of `Config`, so that statements can
  quantify over them; `sourceConfig` holds the values written in the file.
  `TRACKING_ERROR_THRESHOLD` is an `Option`: `none` is the script with the
  `#define` commented out (monthly rebalancing).
* Quantities owned by the host runtime (`priceClose()`, `tdm()`,
  `NumOpenLong`, `NumPendingLong`, the enumeration `for(current_trades)`,
  the slider value `Command[0]`) are inputs, read at the program point
  where the script reads them.
* The only division of the script that is not behind a guard is the one
  that computes `tracking_error`; its result is embedded as an `FVal`, a
  rational or one of the special results of a floating-point division by
  zero.
* The host library functions `ROCP` and `Moment` are not part of the script;
  they are modelled from the specification.  The square root of line 215 is
  a parameter of `ann_vol`.
-/

namespace RiskPremia

/-! ## Configuration (`#define` block, lines 54-69) -/

/-- The `#define` parameters of the script. -/
structure Config where
  /-- The constant `VOL_TARGET`. -/
  VOL_TARGET : ℚ
  /-- The constant `MAX_LEVERAGE`. -/
  MAX_LEVERAGE : ℚ
  /-- The constant `MIN_COMMISSION`. -/
  MIN_COMMISSION : ℚ
  /-- The constant `PER_SHARE_COMMISSION`. -/
  PER_SHARE_COMMISSION : ℚ
  /-- The constant `TRACKING_ERROR_THRESHOLD`; `none` when the `#define` is commented out. -/
  TRACKING_ERROR_THRESHOLD : Option ℚ
  deriving DecidableEq, Repr

/-- The values written in the source file. -/
def sourceConfig : Config where
  VOL_TARGET := 1 / 10
  MAX_LEVERAGE := 1
  MIN_COMMISSION := 1
  PER_SHARE_COMMISSION := 5 / 1000
  TRACKING_ERROR_THRESHOLD := some (1 / 10)

/-- The source file with `TRACKING_ERROR_THRESHOLD` commented out. -/
def monthlyConfig : Config :=
  { sourceConfig with TRACKING_ERROR_THRESHOLD := none }

/-! ## Division -/

/-- A division that reports a zero divisor instead of producing a value. -/
def divChecked (a b : ℚ) : Option ℚ :=
  if b = 0 then none else some (a / b)

/-- Result of a floating-point division whose divisor may be zero. -/
inductive FVal where
  | fin (q : ℚ)
  | posInf
  | negInf
  | nan
  deriving DecidableEq, Repr

/-- Floating-point division: `x/0` is an infinity of the sign of `x`, and
`0/0` is not a number. -/
def fdiv (a b : ℚ) : FVal :=
  if b = 0 then
    if 0 < a then FVal.posInf else if a < 0 then FVal.negInf else FVal.nan
  else FVal.fin (a / b)

/-- The comparison `x > t` of a division result with a finite number; every
comparison with a NaN is false. -/
def FVal.gt (x : FVal) (t : ℚ) : Bool :=
  match x with
  | FVal.fin q => decide (t < q)
  | FVal.posInf => true
  | FVal.negInf => false
  | FVal.nan => false

/-! ## Double arithmetic -/

/-- Rounding of a rational to the nearest integer, a tie going to the even one. -/
def roundHalfEven (y : ℚ) : ℤ :=
  if y - (⌊y⌋ : ℚ) < 1 / 2 then ⌊y⌋
  else if 1 / 2 < y - (⌊y⌋ : ℚ) then ⌊y⌋ + 1
  else if ⌊y⌋ % 2 = 0 then ⌊y⌋ else ⌊y⌋ + 1

/-- The exponent of the unit in the last place of the doubles of the magnitude
of `x`: a significand of 53 bits ends 52 places below its leading bit. -/
def ulpExp (x : ℚ) : ℤ := Int.log 2 |x| - 52

/-- Rounding to the nearest double, a tie going to the even significand; the
exponent is not bounded. -/
def fl (x : ℚ) : ℚ :=
  (roundHalfEven (x / 2 ^ ulpExp x) : ℚ) * 2 ^ ulpExp x

/-- The range of magnitudes, from `2^-100` to `2^100`, on which the statements
about double arithmetic are made: with inputs in it no intermediate result of
lines 221-255 leaves the normal range of a double. -/
def inRange (x : ℚ) : Prop :=
  1 / 2 ^ 100 ≤ x ∧ x ≤ 2 ^ 100

instance (x : ℚ) : Decidable (inRange x) := by
  unfold inRange
  infer_instance

/-- Rounding to the nearest double with the range of the machine checked: the
result is `fl x` when `x` is 0 or of a magnitude from `2^-1022` to below
`2^1023`, where a double is normal and `fl` is the rounding of the machine;
`none` stands for a result that is subnormal or may overflow. -/
def fl_checked (x : ℚ) : Option ℚ :=
  if x = 0 ∨ (1 / 2 ^ 1022 ≤ |x| ∧ |x| < 2 ^ 1023) then some (fl x) else none

/-! ## Size allocation (`run`, lines 203-237) -/

/-- Lines 216-222: the theoretical size of one asset from its annualized
volatility. -/
def theo_size (VOL_TARGET ann_vol : ℚ) : ℚ :=
  if ann_vol = 0 then 0 else VOL_TARGET / ann_vol

/-- The array `theo_size` after the loop of lines 207-223. -/
def theo_sizes (VOL_TARGET : ℚ) (ann_vol : List ℚ) : List ℚ :=
  ann_vol.map (theo_size VOL_TARGET)

/-- Line 226: `Sum(theo_size, NUM_ASSETS)`. -/
def total_size (VOL_TARGET : ℚ) (ann_vol : List ℚ) : ℚ :=
  (theo_sizes VOL_TARGET ann_vol).sum

/-- Lines 227-231: the adjustment factor. -/
def adj_factor (MAX_LEVERAGE total : ℚ) : ℚ :=
  if total > MAX_LEVERAGE then MAX_LEVERAGE / total else 1

/-- Lines 227-231 with the division checked for a zero divisor. -/
def adj_factor_checked (MAX_LEVERAGE total : ℚ) : Option ℚ :=
  if total > MAX_LEVERAGE then divChecked MAX_LEVERAGE total else some 1

/-- Lines 233-237: the array `constrained_size`. -/
def constrained_sizes (VOL_TARGET MAX_LEVERAGE : ℚ) (ann_vol : List ℚ) : List ℚ :=
  (theo_sizes VOL_TARGET ann_vol).map
    (fun s => s * adj_factor MAX_LEVERAGE (total_size VOL_TARGET ann_vol))

/-! ## Target and current positions (`run`, lines 252-265) -/

/-- Line 255: `floor(total_exposure * constrained_size[i] / priceClose())`. -/
def target_position (total_exposure constrained_size price : ℚ) : ℤ :=
  Int.floor (total_exposure * constrained_size / price)

/-- One trade enumerated by `for(current_trades)`. -/
structure Trade where
  /-- The flag `TradeIsOpen`. -/
  isOpen : Bool
  /-- The count `TradeLots`. -/
  lots : ℤ
  deriving DecidableEq, Repr

/-- Lines 256-261: the lots of the open trades, added up from 0. -/
def current_position (trades : List Trade) : ℤ :=
  trades.foldl (fun acc t => if t.isOpen then acc + t.lots else acc) 0

/-- The conversion of a whole number to the 32-bit `int` of the script: a value
outside `-2^31 .. 2^31 - 1` wraps around. -/
def toInt32 (z : ℤ) : ℤ :=
  (z + 2 ^ 31) % 2 ^ 32 - 2 ^ 31

/-- Line 264: `int position_diff = abs(target - current)`; the absolute value
is stored in a 32-bit `int`. -/
def position_diff (target current : ℤ) : ℤ :=
  toInt32 |target - current|

/-- Line 265: `tracking_error = position_diff/target_positions[i]`, computed
for every asset on every bar, whatever the target is. -/
def tracking_error (target current : ℤ) : FVal :=
  fdiv (position_diff target current : ℚ) (target : ℚ)

/-! ## `rebalance` (lines 121-142) -/

/-- The order call made by `rebalance`. -/
inductive Order where
  /-- The call `enterLong(lots)`. -/
  | enterLong (lots : ℤ)
  /-- The call `exitLong(Asset, 0, lots)`. -/
  | exitLong (lots : ℤ)
  deriving DecidableEq, Repr

/-- The change of the position asked for by an order: positive for a buy,
negative for a sell. -/
def Order.signedQuantity : Order → ℤ
  | Order.enterLong lots => lots
  | Order.exitLong lots => -lots

/-- What one call of `rebalance` does: the value it assigns to the global
`Commission` (`none`: no assignment) and the order call it makes (`none`:
no call). -/
structure Rebalance where
  commission : Option ℚ
  order : Option Order
  deriving DecidableEq, Repr

/-- Lines 129-131: the assignment to `Commission`. -/
def commission (MIN_COMMISSION PER_SHARE_COMMISSION : ℚ) (diff : ℤ) : Option ℚ :=
  if diff > 0 then some (max PER_SHARE_COMMISSION (MIN_COMMISSION / (diff : ℚ)))
  else none

/-- Lines 129-141 of `rebalance(current_position, target_position)`. -/
def rebalance (cfg : Config) (current target : ℤ) : Rebalance :=
  let diff : ℤ := |current - target|
  { commission := commission cfg.MIN_COMMISSION cfg.PER_SHARE_COMMISSION diff
    order :=
      if target > current then some (Order.enterLong diff)
      else if target < current then some (Order.exitLong diff)
      else none }

/-! ## The daily loop of `run` (lines 252-307) -/

/-- What the script reads for asset `i` inside the loop of lines 252-293. -/
structure AssetBar where
  /-- The value `ann_vol[i]` of line 215. -/
  ann_vol : ℚ
  /-- The value of `priceClose()` for the asset. -/
  price : ℚ
  /-- The trades enumerated by `for(current_trades)`. -/
  trades : List Trade
  /-- The value of `NumOpenLong` read at line 288. -/
  numOpenLong : ℕ
  /-- The value of `NumPendingLong` read at line 288. -/
  numPendingLong : ℕ
  deriving DecidableEq, Repr

/-- The array `target_positions` after the loop of lines 252-293. -/
def target_positions (cfg : Config) (total_exposure : ℚ) (assets : List AssetBar) :
    List ℤ :=
  List.zipWith (fun cs a => target_position total_exposure cs a.price)
    (constrained_sizes cfg.VOL_TARGET cfg.MAX_LEVERAGE (assets.map AssetBar.ann_vol))
    assets

/-- Line 288: the condition under which `rebalance` is called for one asset
when `TRACKING_ERROR_THRESHOLD` is defined. -/
def tracking_trigger (threshold ann_vol : ℚ) (target current : ℤ)
    (numOpenLong numPendingLong : ℕ) : Bool :=
  decide (ann_vol > 0) &&
    ((tracking_error target current).gt threshold ||
      decide (numOpenLong + numPendingLong = 0))

/-- Line 299: the condition under which the monthly loop runs. -/
def calendar_trigger (tdm numOpenLong numPendingLong : ℕ) : Bool :=
  decide (tdm = 1) || decide (numOpenLong + numPendingLong = 0)

/-- One bar of `run`, lines 252-307.  `tdm`, `numOpenLong` and
`numPendingLong` are the values read at line 299, after the loop.  The
result has one entry per asset: `none` when `rebalance` is not called for
it, and what the call does otherwise. -/
def run (cfg : Config) (total_exposure : ℚ) (tdm numOpenLong numPendingLong : ℕ)
    (assets : List AssetBar) : List (Option Rebalance) :=
  let targets := target_positions cfg total_exposure assets
  match cfg.TRACKING_ERROR_THRESHOLD with
  | some threshold =>
    List.zipWith
      (fun target a =>
        let current := current_position a.trades
        if tracking_trigger threshold a.ann_vol target current
            a.numOpenLong a.numPendingLong
        then some (rebalance cfg current target) else none)
      targets assets
  | none =>
    List.zipWith
      (fun target a =>
        if calendar_trigger tdm numOpenLong numPendingLong
        then some (rebalance cfg (current_position a.trades) target) else none)
      targets assets

/-- Line 265 with the division checked for a zero divisor. -/
def tracking_error_checked (target current : ℤ) : Option ℚ :=
  divChecked (position_diff target current : ℚ) (target : ℚ)

/-- The values of `tracking_error` computed at line 265 during one bar, one
per asset. -/
def tracking_errors (cfg : Config) (total_exposure : ℚ) (assets : List AssetBar) :
    List FVal :=
  List.zipWith (fun target a => tracking_error target (current_position a.trades))
    (target_positions cfg total_exposure assets) assets

/-! ## The volatility estimate (`run`, lines 211-215) -/

/-- Modelled from the spec: the host function `ROCP(closes, 1)`, which is not
part of the script.  The closes are listed oldest first, and the result lists
the one-period simple returns `price_t / price_{t-1} - 1`, oldest first. -/
def ROCP (closes : List ℚ) : List ℚ :=
  List.zipWith (fun prev cur => cur / prev - 1) closes closes.tail

/-- Modelled from the spec: the window of the host function `Moment`, the most
recent `n` entries of a series listed oldest first. -/
def mostRecent (n : ℕ) (series : List ℚ) : List ℚ :=
  series.drop (series.length - n)

/-- Modelled from the spec: the host function `Moment(returns, N, 2)`, which is
not part of the script: the population variance (second central moment) of
the most recent `N` entries of the series. -/
def Moment2 (returns : List ℚ) (N : ℕ) : ℚ :=
  let window := mostRecent N returns
  let mean := window.sum / (window.length : ℚ)
  (window.map (fun r => (r - mean) ^ 2)).sum / (window.length : ℚ)

/-- Line 215: `ann_vol[i] = sqrt(Moment(returns, VOL_LOOKBACK, 2)*252)`.  The
square root of the host's math library is the parameter `sqrt`. -/
def ann_vol (sqrt : ℚ → ℚ) (closes : List ℚ) (VOL_LOOKBACK : ℕ) : ℚ :=
  sqrt (Moment2 (ROCP closes) VOL_LOOKBACK * 252)

/-- A square root computed to six decimal places, rounded down: a square root
with finitely many digits, as a math library provides. -/
def sqrtDigits (x : ℚ) : ℚ :=
  (Nat.sqrt (Int.toNat (Int.floor (x * 10 ^ 12))) : ℚ) / 10 ^ 6

/-! ## `writeLog` (lines 82-119) -/

/-- The numbers of one data line of the log, lines 96-115, in the order of the
format string; the date, the asset name and the open, high and low prices are
left out. -/
structure LogRecord where
  /-- The value of `priceClose()`. -/
  close : ℚ
  /-- The column `CurrentPosition`. -/
  current_position : ℤ
  /-- The column `Exposure`. -/
  exposure : ℚ
  /-- The column `DesiredPosition`. -/
  desired_position : ℤ
  /-- The column `PositionDelta`. -/
  position_delta : ℤ
  /-- The column `CurrentVolatility`. -/
  current_vol : ℚ
  /-- The column `TargetVolatility`. -/
  target_vol : ℚ
  /-- The column `TradingDaysUntilRebal`. -/
  tradingDaysUntilRebal : ℤ
  /-- The column `TrackingError`. -/
  tracking_error : FVal
  /-- The column `TrackingErrorThreshold`. -/
  tracking_error_threshold : ℚ
  deriving DecidableEq, Repr

/-- What one call of `writeLog` appends to the file. -/
inductive LogLine where
  /-- The line of column names, line 89. -/
  | header
  /-- A data line, lines 96-115. -/
  | record (r : LogRecord)
  /-- No line at all. -/
  | skipped
  deriving DecidableEq, Repr

/-- The function `writeLog`, lines 82-119.  `initrun` and `lookback` are the
host flags `is(INITRUN)` and `is(LOOKBACK)`, `firsttime` is the static flag of
line 86, `fileEmpty` is `!file_length(fileName)`, and `tdm`, `tom` and
`priceClose` are the host values `tdm()`, `tom()` and `priceClose()`.  The
result is the line appended and the new value of `firsttime`. -/
def writeLog (VOL_TARGET : ℚ) (initrun firsttime fileEmpty lookback : Bool)
    (tdm tom : ℕ) (priceClose : ℚ) (current_position desired_position : ℤ)
    (current_vol _target_vol : ℚ) (tracking_error : FVal)
    (tracking_error_threshold : ℚ) : LogLine × Bool :=
  if initrun && firsttime && fileEmpty then (LogLine.header, false)
  else if !lookback then
    (LogLine.record
      { close := priceClose
        current_position := current_position
        exposure := (current_position : ℚ) * priceClose
        desired_position := desired_position
        position_delta := desired_position - current_position
        current_vol := current_vol
        target_vol := VOL_TARGET
        tradingDaysUntilRebal := if tdm = 1 then 0 else (tom : ℤ) - (tdm : ℤ) + 1
        tracking_error := tracking_error
        tracking_error_threshold := tracking_error_threshold },
      firsttime)
  else (LogLine.skipped, firsttime)

/-- Lines 268-273: the last argument of the call of `writeLog`. -/
def logged_threshold (cfg : Config) : ℚ :=
  match cfg.TRACKING_ERROR_THRESHOLD with
  | some threshold => threshold
  | none => 0

/-- The calls of `writeLog` made by the loop of lines 252-293 for the assets
that remain, each paired with its target position; `firsttime` is threaded
from one call to the next. -/
def run_log_loop (cfg : Config) (initrun fileEmpty lookback : Bool) (tdm tom : ℕ) :
    Bool → List (ℤ × AssetBar) → List LogLine
  | _, [] => []
  | firsttime, (target, a) :: rest =>
    let current := current_position a.trades
    let out := writeLog cfg.VOL_TARGET initrun firsttime fileEmpty lookback tdm tom
      a.price current target a.ann_vol cfg.VOL_TARGET (tracking_error target current)
      (logged_threshold cfg)
    out.1 :: run_log_loop cfg initrun fileEmpty lookback tdm tom out.2 rest

/-- The lines appended to the log during one bar of `run`, with `LOGGING`
defined. -/
def run_log (cfg : Config) (total_exposure : ℚ)
    (initrun firsttime fileEmpty lookback : Bool) (tdm tom : ℕ)
    (assets : List AssetBar) : List LogLine :=
  run_log_loop cfg initrun fileEmpty lookback tdm tom firsttime
    ((target_positions cfg total_exposure assets).zip assets)

/-! ## Lines 221-255 in double arithmetic -/

/-- Lines 216-222 in double arithmetic: the quotient is rounded. -/
def theo_size_fl (VOL_TARGET ann_vol : ℚ) : ℚ :=
  if ann_vol = 0 then 0 else fl (VOL_TARGET / ann_vol)

/-- The array `theo_size` after the loop of lines 207-223, in double arithmetic. -/
def theo_sizes_fl (VOL_TARGET : ℚ) (ann_vol : List ℚ) : List ℚ :=
  ann_vol.map (theo_size_fl VOL_TARGET)

/-- The host function `Sum` in double arithmetic: the entries are added one by
one, from the first to the last, and every addition is rounded. -/
def Sum_fl (data : List ℚ) : ℚ :=
  data.foldl (fun acc x => fl (acc + x)) 0

/-- Line 226 in double arithmetic. -/
def total_size_fl (VOL_TARGET : ℚ) (ann_vol : List ℚ) : ℚ :=
  Sum_fl (theo_sizes_fl VOL_TARGET ann_vol)

/-- Lines 227-231 in double arithmetic. -/
def adj_factor_fl (MAX_LEVERAGE total : ℚ) : ℚ :=
  if total > MAX_LEVERAGE then fl (MAX_LEVERAGE / total) else 1

/-- Lines 233-237 in double arithmetic: every product is rounded. -/
def constrained_sizes_fl (VOL_TARGET MAX_LEVERAGE : ℚ) (ann_vol : List ℚ) : List ℚ :=
  (theo_sizes_fl VOL_TARGET ann_vol).map
    (fun s => fl (s * adj_factor_fl MAX_LEVERAGE (total_size_fl VOL_TARGET ann_vol)))

/-- Line 255 in double arithmetic: the product and then the quotient are
rounded, and the floor of the rounded quotient is taken. -/
def target_position_fl (total_exposure constrained_size price : ℚ) : ℤ :=
  Int.floor (fl (fl (total_exposure * constrained_size) / price))

/-- The array `target_positions` after the loop of lines 252-293, in double
arithmetic. -/
def target_positions_fl (cfg : Config) (total_exposure : ℚ) (assets : List AssetBar) :
    List ℤ :=
  List.zipWith (fun cs a => target_position_fl total_exposure cs a.price)
    (constrained_sizes_fl cfg.VOL_TARGET cfg.MAX_LEVERAGE (assets.map AssetBar.ann_vol))
    assets

/-- The notional value of the target portfolio computed in double arithmetic:
the exact sum of `target_positions[i] * priceClose()` over the assets. -/
def target_notional_fl (cfg : Config) (total_exposure : ℚ) (assets : List AssetBar) : ℚ :=
  (List.zipWith (fun (target : ℤ) (a : AssetBar) => (target : ℚ) * a.price)
    (target_positions_fl cfg total_exposure assets) assets).sum

/-! ## Lines 221-255 with the range of a double checked -/

/-- Lines 216-222 with the range of the rounded quotient checked. -/
def theo_size_fl_checked (VOL_TARGET ann_vol : ℚ) : Option ℚ :=
  if ann_vol = 0 then some 0 else fl_checked (VOL_TARGET / ann_vol)

/-- The host function `Sum` with the range of every rounded addition checked. -/
def Sum_fl_checked (data : List ℚ) : Option ℚ :=
  data.foldlM (fun acc x => fl_checked (acc + x)) 0

/-- Lines 227-231 with the range of the rounded quotient checked. -/
def adj_factor_fl_checked (MAX_LEVERAGE total : ℚ) : Option ℚ :=
  if total > MAX_LEVERAGE then fl_checked (MAX_LEVERAGE / total) else some 1

/-- Lines 207-237 with the range of every rounded result checked: the sizes,
their sum, the adjustment factor and the products, in the order of the
script. -/
def constrained_sizes_fl_checked (VOL_TARGET MAX_LEVERAGE : ℚ) (ann_vol : List ℚ) :
    Option (List ℚ) :=
  (ann_vol.mapM (theo_size_fl_checked VOL_TARGET)).bind fun sizes =>
    (Sum_fl_checked sizes).bind fun total =>
      (adj_factor_fl_checked MAX_LEVERAGE total).bind fun factor =>
        sizes.mapM (fun s => fl_checked (s * factor))

/-- Line 255 with the range of the rounded product and of the rounded quotient
checked. -/
def target_position_fl_checked (total_exposure constrained_size price : ℚ) : Option ℤ :=
  (fl_checked (total_exposure * constrained_size)).bind fun x =>
    (fl_checked (x / price)).map fun q => Int.floor q

/-- The array `target_positions` with the range of every rounded result of lines
207-255 checked. -/
def target_positions_fl_checked (cfg : Config) (total_exposure : ℚ)
    (assets : List AssetBar) : Option (List ℤ) :=
  (constrained_sizes_fl_checked cfg.VOL_TARGET cfg.MAX_LEVERAGE
      (assets.map AssetBar.ann_vol)).bind fun sizes =>
    (sizes.zip assets).mapM
      (fun ca => target_position_fl_checked total_exposure ca.1 ca.2.price)

/-! ## Sample inputs -/

/-- Three assets at the closes 183.76, 171.11 and 164.68 with annualized
volatilities 0.15, 0.12 and 0.18, each held in one open long trade. -/
def sampleBars : List AssetBar :=
  [ { ann_vol := 15 / 100, price := 18376 / 100, trades := [⟨true, 80⟩],
      numOpenLong := 1, numPendingLong := 0 },
    { ann_vol := 12 / 100, price := 17111 / 100, trades := [⟨true, 120⟩],
      numOpenLong := 1, numPendingLong := 0 },
    { ann_vol := 18 / 100, price := 16468 / 100, trades := [⟨true, 82⟩],
      numOpenLong := 1, numPendingLong := 0 } ]

/-- One asset with zero volatility, as for a flat price history, and no trade. -/
def flatBar : AssetBar :=
  { ann_vol := 0, price := 100, trades := [], numOpenLong := 0, numPendingLong := 0 }

/-- One asset with zero volatility that is held at 10 shares in one open long
trade. -/
def flatHeldBar : AssetBar :=
  { ann_vol := 0, price := 100, trades := [⟨true, 10⟩], numOpenLong := 1,
    numPendingLong := 0 }

/-- One asset at the close 183.76 with volatility 0.15 that is held at 5 shares
in one open long trade. -/
def smallHeldBar : AssetBar :=
  { ann_vol := 15 / 100, price := 18376 / 100, trades := [⟨true, 5⟩], numOpenLong := 1,
    numPendingLong := 0 }

/-- The data line logged for the first asset of `sampleBars` on the first trading
day of a month of 21 trading days, with `TRACKING_ERROR_THRESHOLD` not
defined and an exposure of 50000. -/
def sampleRecord : LogRecord :=
  { close := 18376 / 100, current_position := 80, exposure := 80 * (18376 / 100),
    desired_position := 88, position_delta := 8, current_vol := 15 / 100,
    target_vol := 1 / 10, tradingDaysUntilRebal := 0,
    tracking_error := FVal.fin (1 / 11), tracking_error_threshold := 0 }

/-- The constants of the script as doubles: `VOL_TARGET` is the double nearest
0.1 and `MAX_LEVERAGE` is 1. -/
def sourceConfig_fl : Config :=
  { sourceConfig with VOL_TARGET := fl (1 / 10) }

/-- The doubles nearest the volatilities 0.53, 0.11 and 0.36. -/
def roundingVols : List ℚ :=
  [fl (53 / 100), fl (11 / 100), fl (36 / 100)]

/-- The doubles nearest the volatilities 0.15, 0.12 and 0.18. -/
def sampleVols_fl : List ℚ :=
  [fl (15 / 100), fl (12 / 100), fl (18 / 100)]

/-- Three assets with the volatilities of `roundingVols`, each at the close 1
and with no trade. -/
def unitPriceBars : List AssetBar :=
  [ { ann_vol := fl (53 / 100), price := 1, trades := [], numOpenLong := 0,
      numPendingLong := 0 },
    { ann_vol := fl (11 / 100), price := 1, trades := [], numOpenLong := 0,
      numPendingLong := 0 },
    { ann_vol := fl (36 / 100), price := 1, trades := [], numOpenLong := 0,
      numPendingLong := 0 } ]

/-- The three assets of `sampleBars` with their volatilities and closes replaced
by the nearest doubles. -/
def sampleBars_fl : List AssetBar :=
  [ { ann_vol := fl (15 / 100), price := fl (18376 / 100), trades := [⟨true, 80⟩],
      numOpenLong := 1, numPendingLong := 0 },
    { ann_vol := fl (12 / 100), price := fl (17111 / 100), trades := [⟨true, 120⟩],
      numOpenLong := 1, numPendingLong := 0 },
    { ann_vol := fl (18 / 100), price := fl (16468 / 100), trades := [⟨true, 82⟩],
      numOpenLong := 1, numPendingLong := 0 } ]

/-- One asset whose volatility is the double nearest 0.1, so that its
constrained size is 1, at the double nearest the close 164.68. -/
def roundedPriceBar : AssetBar :=
  { ann_vol := fl (1 / 10), price := fl (16468 / 100), trades := [], numOpenLong := 0,
    numPendingLong := 0 }

/-- The double nearest 0.19. -/
def vol19 : ℚ := fl (19 / 100)

/-- The double that follows `vol19`: doubles between 1/8 and 1/4 are `2^-55`
apart. -/
def vol19next : ℚ := fl (19 / 100) + 1 / 2 ^ 55

/-! ## Auxiliary facts -/

theorem adj_factor_checked_eq (ml t : ℚ) (hml : 0 ≤ ml) :
    adj_factor_checked ml t = some (adj_factor ml t) := by
  unfold adj_factor_checked adj_factor divChecked
  by_cases h : t > ml
  · have h0 : t ≠ 0 := ne_of_gt (lt_of_le_of_lt hml h)
    simp [h, h0]
  · simp [h]

theorem constrained_sizes_getElem? (vt ml : ℚ) (av : List ℚ) (i : ℕ) :
    (constrained_sizes vt ml av)[i]? =
      (av[i]?).map (fun v => theo_size vt v * adj_factor ml (total_size vt av)) := by
  simp [constrained_sizes, theo_sizes, Function.comp_def]

theorem target_positions_getElem? (cfg : Config) (te : ℚ) (assets : List AssetBar)
    (i : ℕ) (a : AssetBar) (ha : assets[i]? = some a) :
    (target_positions cfg te assets)[i]? =
      some (target_position te
        (theo_size cfg.VOL_TARGET a.ann_vol *
          adj_factor cfg.MAX_LEVERAGE
            (total_size cfg.VOL_TARGET (assets.map AssetBar.ann_vol)))
        a.price) := by
  simp [target_positions, List.getElem?_zipWith, constrained_sizes_getElem?, ha]

theorem run_tracking_getElem? (cfg : Config) (threshold te : ℚ) (tdm no np : ℕ)
    (assets : List AssetBar) (i : ℕ) (a : AssetBar) (target : ℤ)
    (hmode : cfg.TRACKING_ERROR_THRESHOLD = some threshold)
    (ha : assets[i]? = some a)
    (ht : (target_positions cfg te assets)[i]? = some target) :
    (run cfg te tdm no np assets)[i]? =
      some (if tracking_trigger threshold a.ann_vol target (current_position a.trades)
              a.numOpenLong a.numPendingLong
            then some (rebalance cfg (current_position a.trades) target) else none) := by
  simp [run, hmode, List.getElem?_zipWith, ha, ht]

theorem run_calendar_getElem? (cfg : Config) (te : ℚ) (tdm no np : ℕ)
    (assets : List AssetBar) (i : ℕ) (a : AssetBar) (target : ℤ)
    (hmode : cfg.TRACKING_ERROR_THRESHOLD = none)
    (ha : assets[i]? = some a)
    (ht : (target_positions cfg te assets)[i]? = some target) :
    (run cfg te tdm no np assets)[i]? =
      some (if calendar_trigger tdm no np
            then some (rebalance cfg (current_position a.trades) target) else none) := by
  simp [run, hmode, List.getElem?_zipWith, ha, ht]

theorem target_positions_length (cfg : Config) (te : ℚ) (assets : List AssetBar) :
    (target_positions cfg te assets).length = assets.length := by
  simp [target_positions, constrained_sizes, theo_sizes]

theorem run_length (cfg : Config) (te : ℚ) (tdm no np : ℕ) (assets : List AssetBar) :
    (run cfg te tdm no np assets).length = assets.length := by
  unfold run
  cases cfg.TRACKING_ERROR_THRESHOLD <;> simp [target_positions_length]

theorem calendar_trigger_iff (tdm no np : ℕ) :
    calendar_trigger tdm no np = true ↔ (tdm = 1 ∨ (no = 0 ∧ np = 0)) := by
  simp [calendar_trigger]

theorem sampleBars_monthly_targets :
    target_positions monthlyConfig 50000 sampleBars = [88, 118, 82] := by
  norm_num [target_positions, constrained_sizes, theo_sizes, theo_size, total_size,
    adj_factor, target_position, sampleBars, sourceConfig, monthlyConfig]

theorem theo_size_nonneg (vt v : ℚ) (hvt : 0 ≤ vt) (hv : 0 ≤ v) : 0 ≤ theo_size vt v := by
  unfold theo_size
  split_ifs
  · exact le_refl 0
  · exact div_nonneg hvt hv

theorem adj_factor_nonneg (ml t : ℚ) (hml : 0 ≤ ml) : 0 ≤ adj_factor ml t := by
  unfold adj_factor
  split_ifs with h
  · exact div_nonneg hml (le_trans hml h.le)
  · exact zero_le_one

theorem target_positions_nonneg (cfg : Config) (te : ℚ) (assets : List AssetBar)
    (hcap : 0 ≤ te) (hprice : ∀ a ∈ assets, 0 < a.price)
    (hvol : ∀ a ∈ assets, 0 ≤ a.ann_vol)
    (hvt : 0 ≤ cfg.VOL_TARGET) (hml : 0 ≤ cfg.MAX_LEVERAGE)
    (i : ℕ) (t : ℤ) (ht : (target_positions cfg te assets)[i]? = some t) : 0 ≤ t := by
  cases ha : assets[i]? with
  | none =>
    have hlen := target_positions_length cfg te assets
    rw [List.getElem?_eq_none_iff] at ha
    have : (target_positions cfg te assets)[i]? = none := by
      rw [List.getElem?_eq_none_iff]; omega
    rw [this] at ht
    cases ht
  | some a =>
    have hmem : a ∈ assets := List.getElem?_mem ha
    rw [target_positions_getElem? cfg te assets i a ha] at ht
    cases ht
    unfold target_position
    rw [Int.floor_nonneg]
    apply div_nonneg _ (hprice a hmem).le
    exact mul_nonneg hcap
      (mul_nonneg (theo_size_nonneg _ _ hvt (hvol a hmem)) (adj_factor_nonneg _ _ hml))

theorem run_getElem?_some (cfg : Config) (te : ℚ) (tdm no np : ℕ)
    (assets : List AssetBar) (i : ℕ) (a : AssetBar) (r : Rebalance)
    (ha : assets[i]? = some a)
    (hr : (run cfg te tdm no np assets)[i]? = some (some r)) :
    ∃ target, (target_positions cfg te assets)[i]? = some target ∧
      r = rebalance cfg (current_position a.trades) target := by
  have ht := target_positions_getElem? cfg te assets i a ha
  refine ⟨_, ht, ?_⟩
  cases hmode : cfg.TRACKING_ERROR_THRESHOLD with
  | none =>
    rw [run_calendar_getElem? cfg te tdm no np assets i a _ hmode ha ht] at hr
    split_ifs at hr
    · simpa using hr.symm
    · simp at hr
  | some threshold =>
    rw [run_tracking_getElem? cfg threshold te tdm no np assets i a _ hmode ha ht] at hr
    split_ifs at hr
    · simpa using hr.symm
    · simp at hr

theorem rebalance_exitLong (cfg : Config) (current target lots : ℤ)
    (h : (rebalance cfg current target).order = some (Order.exitLong lots)) :
    target < current ∧ lots = current - target := by
  rcases lt_trichotomy current target with hlt | heq | hgt
  · simp [rebalance, hlt] at h
  · subst heq
    simp [rebalance] at h
  · have h1 : |current - target| = current - target := abs_of_pos (by omega)
    simp [rebalance, hgt, not_lt.mpr hgt.le, h1] at h
    exact ⟨hgt, h.symm⟩

theorem tracking_error_zero_target (current : ℤ) :
    (∀ q : ℚ, tracking_error 0 current ≠ FVal.fin q) ∧
      tracking_error_checked 0 current = none := by
  constructor
  · intro q
    unfold tracking_error fdiv
    simp only [Int.cast_zero, if_true]
    split_ifs <;> simp
  · simp [tracking_error_checked, divChecked]

theorem zipWith_all_eq {α β γ : Type} (f : α → β → γ) (c : γ) :
    ∀ (l₁ : List α) (l₂ : List β), (∀ a ∈ l₁, ∀ b ∈ l₂, f a b = c) →
      ∀ x ∈ List.zipWith f l₁ l₂, x = c := by
  intro l₁
  induction l₁ with
  | nil => intro l₂ _ x hx; simp at hx
  | cons a as ih =>
    intro l₂ h x hx
    cases l₂ with
    | nil => simp at hx
    | cons b bs =>
      simp only [List.zipWith_cons_cons, List.mem_cons] at hx
      rcases hx with rfl | hx
      · exact h a (List.mem_cons_self _ _) b (List.mem_cons_self _ _)
      · exact ih bs (fun a' ha' b' hb' =>
          h a' (List.mem_cons_of_mem _ ha') b' (List.mem_cons_of_mem _ hb')) x hx

theorem ROCP_flat (closes : List ℚ) (p : ℚ) (hp : 0 < p) (hflat : ∀ c ∈ closes, c = p) :
    ∀ r ∈ ROCP closes, r = 0 := by
  apply zipWith_all_eq
  intro a ha b hb
  rw [hflat a ha, hflat b (List.mem_of_mem_tail hb), div_self (ne_of_gt hp), sub_self]

theorem sum_eq_zero_of_all_zero (l : List ℚ) (h : ∀ r ∈ l, r = 0) : l.sum = 0 := by
  induction l with
  | nil => rfl
  | cons x xs ih =>
    rw [List.sum_cons, h x (List.mem_cons_self _ _),
      ih (fun r hr => h r (List.mem_cons_of_mem _ hr)), add_zero]

theorem Moment2_of_all_zero (returns : List ℚ) (N : ℕ) (h : ∀ r ∈ returns, r = 0) :
    Moment2 returns N = 0 := by
  have hw : ∀ r ∈ mostRecent N returns, r = 0 :=
    fun r hr => h r (List.mem_of_mem_drop hr)
  have hsum : (mostRecent N returns).sum = 0 := sum_eq_zero_of_all_zero _ hw
  have hsq : ((mostRecent N returns).map
      (fun r => (r - (mostRecent N returns).sum / ((mostRecent N returns).length : ℚ)) ^ 2)).sum
        = 0 := by
    apply sum_eq_zero_of_all_zero
    intro x hx
    rw [List.mem_map] at hx
    obtain ⟨r, hr, rfl⟩ := hx
    rw [hw r hr, hsum]
    simp
  simp only [Moment2]
  rw [hsq, zero_div]

theorem Moment2_nonneg (returns : List ℚ) (N : ℕ) : 0 ≤ Moment2 returns N := by
  simp only [Moment2]
  apply div_nonneg _ (Nat.cast_nonneg _)
  apply List.sum_nonneg
  intro x hx
  rw [List.mem_map] at hx
  obtain ⟨r, _, rfl⟩ := hx
  exact sq_nonneg _

theorem sqrtDigits_nonneg (x : ℚ) : 0 ≤ sqrtDigits x := by
  unfold sqrtDigits
  positivity

theorem sqrtDigits_zero : sqrtDigits 0 = 0 := by
  simp [sqrtDigits]

theorem writeLog_record (vt : ℚ) (initrun firsttime fileEmpty lookback : Bool)
    (tdm tom : ℕ) (pc : ℚ) (cur des : ℤ) (cv tv : ℚ) (te : FVal) (thr : ℚ)
    (r : LogRecord)
    (h : (writeLog vt initrun firsttime fileEmpty lookback tdm tom pc cur des cv tv te
      thr).1 = LogLine.record r) :
    r.tradingDaysUntilRebal = (if tdm = 1 then 0 else (tom : ℤ) - (tdm : ℤ) + 1) ∧
      r.tracking_error_threshold = thr ∧ lookback = false := by
  unfold writeLog at h
  by_cases h1 : (initrun && firsttime && fileEmpty) = true
  · rw [if_pos h1] at h
    cases h
  · rw [if_neg h1] at h
    by_cases h2 : (!lookback) = true
    · rw [if_pos h2] at h
      simp only [LogLine.record.injEq] at h
      subst h
      exact ⟨rfl, rfl, by simpa using h2⟩
    · rw [if_neg h2] at h
      cases h

theorem run_log_loop_record (cfg : Config) (initrun fileEmpty lookback : Bool)
    (tdm tom : ℕ) (r : LogRecord) :
    ∀ (l : List (ℤ × AssetBar)) (firsttime : Bool),
      LogLine.record r ∈ run_log_loop cfg initrun fileEmpty lookback tdm tom firsttime l →
      r.tradingDaysUntilRebal = (if tdm = 1 then 0 else (tom : ℤ) - (tdm : ℤ) + 1) ∧
        r.tracking_error_threshold = logged_threshold cfg ∧ lookback = false := by
  intro l
  induction l with
  | nil => intro firsttime h; simp [run_log_loop] at h
  | cons x xs ih =>
    intro firsttime h
    obtain ⟨target, a⟩ := x
    simp only [run_log_loop, List.mem_cons] at h
    rcases h with h | h
    · exact writeLog_record _ _ _ _ _ _ _ _ _ _ _ _ _ _ r h.symm
    · exact ih _ h

theorem run_log_calendar_sample :
    (run_log monthlyConfig 50000 false true false false 1 21 sampleBars)[0]? =
      some (LogLine.record sampleRecord) := by
  norm_num [run_log, run_log_loop, writeLog, logged_threshold, target_positions,
    constrained_sizes, theo_sizes, theo_size, total_size, adj_factor, target_position,
    sampleBars, sourceConfig, monthlyConfig, sampleRecord, tracking_error, fdiv,
    position_diff, toInt32, current_position]

/-! ### Rounding to the nearest double -/

theorem roundHalfEven_intCast (n : ℤ) : roundHalfEven (n : ℚ) = n := by
  simp [roundHalfEven]

theorem roundHalfEven_mem (y : ℚ) :
    roundHalfEven y = ⌊y⌋ ∨ roundHalfEven y = ⌊y⌋ + 1 := by
  unfold roundHalfEven
  split_ifs <;> simp

theorem abs_roundHalfEven_sub_le (y : ℚ) : |(roundHalfEven y : ℚ) - y| ≤ 1 / 2 := by
  have h1 := Int.floor_le y
  have h2 := Int.lt_floor_add_one y
  unfold roundHalfEven
  rw [abs_le]
  split_ifs with ha hb hc
  · constructor <;> linarith
  · push_cast
    constructor <;> linarith
  · have : y - (⌊y⌋ : ℚ) = 1 / 2 := le_antisymm (not_lt.mp hb) (not_lt.mp ha)
    constructor <;> linarith
  · have : y - (⌊y⌋ : ℚ) = 1 / 2 := le_antisymm (not_lt.mp hb) (not_lt.mp ha)
    push_cast
    constructor <;> linarith

theorem roundHalfEven_mono {y z : ℚ} (h : y ≤ z) : roundHalfEven y ≤ roundHalfEven z := by
  have hfl : ⌊y⌋ ≤ ⌊z⌋ := Int.floor_mono h
  rcases lt_or_eq_of_le hfl with hlt | heq
  · have h1 : roundHalfEven y ≤ ⌊y⌋ + 1 := by
      rcases roundHalfEven_mem y with h | h <;> omega
    have h2 : ⌊z⌋ ≤ roundHalfEven z := by
      rcases roundHalfEven_mem z with h | h <;> omega
    omega
  · unfold roundHalfEven
    rw [← heq]
    have hyz : y - (⌊y⌋ : ℚ) ≤ z - (⌊y⌋ : ℚ) := by linarith
    split_ifs <;> first | omega | (exfalso; linarith)

theorem two_zpow_pos (k : ℤ) : (0 : ℚ) < 2 ^ k := zpow_pos (by norm_num) k

theorem fl_zero : fl 0 = 0 := by
  simp [fl, roundHalfEven]

theorem abs_fl_sub_le (x : ℚ) : |fl x - x| ≤ 2 ^ (-53 : ℤ) * |x| := by
  rcases eq_or_ne x 0 with rfl | hx
  · simp [fl_zero]
  have hq := two_zpow_pos (ulpExp x)
  have hy := abs_roundHalfEven_sub_le (x / 2 ^ ulpExp x)
  have hfl : fl x - x =
      ((roundHalfEven (x / 2 ^ ulpExp x) : ℚ) - x / 2 ^ ulpExp x) * 2 ^ ulpExp x := by
    unfold fl
    field_simp
  have hlog : (2 : ℚ) ^ Int.log 2 |x| ≤ |x| := by
    have := Int.zpow_log_le_self (b := 2) (r := |x|) (by norm_num) (abs_pos.mpr hx)
    simpa using this
  have hsplit : (2 : ℚ) ^ ulpExp x = 2 ^ (-52 : ℤ) * 2 ^ Int.log 2 |x| := by
    unfold ulpExp
    rw [← zpow_add₀ (by norm_num : (2 : ℚ) ≠ 0)]
    congr 1
    ring
  rw [hfl, abs_mul, abs_of_pos hq]
  calc |(roundHalfEven (x / 2 ^ ulpExp x) : ℚ) - x / 2 ^ ulpExp x| * 2 ^ ulpExp x
      ≤ 1 / 2 * 2 ^ ulpExp x := mul_le_mul_of_nonneg_right hy hq.le
    _ = 2 ^ (-53 : ℤ) * 2 ^ Int.log 2 |x| := by
        rw [hsplit]
        norm_num
        ring
    _ ≤ 2 ^ (-53 : ℤ) * |x| := mul_le_mul_of_nonneg_left hlog (two_zpow_pos _).le

theorem log_eq_of_bounds {x : ℚ} {k : ℤ} (hlo : 2 ^ k ≤ x) (hhi : x < 2 ^ (k + 1)) :
    Int.log 2 x = k := by
  have hx : 0 < x := lt_of_lt_of_le (two_zpow_pos k) hlo
  have h1 : k ≤ Int.log 2 x := by
    rw [← Int.zpow_le_iff_le_log (by norm_num) hx]
    simpa using hlo
  have h2 : Int.log 2 x < k + 1 := by
    rw [← Int.lt_zpow_iff_log_lt (by norm_num) hx]
    simpa using hhi
  omega

theorem fl_eq (x : ℚ) (e m : ℤ) (hlo : 2 ^ (e + 52) ≤ |x|) (hhi : |x| < 2 ^ (e + 53))
    (hm : |x / 2 ^ e - m| < 1 / 2) : fl x = m * 2 ^ e := by
  have hlog : Int.log 2 |x| = e + 52 := log_eq_of_bounds hlo (by simpa [add_assoc] using hhi)
  have hexp : ulpExp x = e := by
    unfold ulpExp
    omega
  unfold fl
  rw [hexp]
  congr 1
  have hy := abs_roundHalfEven_sub_le (x / 2 ^ e)
  have hlt : |((roundHalfEven (x / 2 ^ e) : ℤ) : ℚ) - (m : ℚ)| < 1 := by
    calc |((roundHalfEven (x / 2 ^ e) : ℤ) : ℚ) - (m : ℚ)|
        = |((roundHalfEven (x / 2 ^ e) : ℚ) - x / 2 ^ e) + (x / 2 ^ e - m)| := by
          congr 1; ring
      _ ≤ |(roundHalfEven (x / 2 ^ e) : ℚ) - x / 2 ^ e| + |x / 2 ^ e - m| := abs_add _ _
      _ < 1 := by linarith
  have hint : |roundHalfEven (x / 2 ^ e) - m| < 1 := by
    exact_mod_cast hlt
  have : roundHalfEven (x / 2 ^ e) = m := by
    rw [abs_lt] at hint
    omega
  rw [this]

theorem fl_eq_pos (x : ℚ) (e m : ℤ) (hlo : 2 ^ (e + 52) ≤ x) (hhi : x < 2 ^ (e + 53))
    (h1 : (m : ℚ) - 1 / 2 < x / 2 ^ e) (h2 : x / 2 ^ e < (m : ℚ) + 1 / 2) :
    fl x = m * 2 ^ e := by
  have hx : 0 < x := lt_of_lt_of_le (two_zpow_pos _) hlo
  apply fl_eq x e m
  · rwa [abs_of_pos hx]
  · rwa [abs_of_pos hx]
  · rw [abs_lt]
    constructor <;> linarith

theorem fl_nonneg {x : ℚ} (hx : 0 ≤ x) : 0 ≤ fl x := by
  unfold fl
  apply mul_nonneg _ (two_zpow_pos _).le
  have h0 : (0 : ℚ) ≤ x / 2 ^ ulpExp x := div_nonneg hx (two_zpow_pos _).le
  have := roundHalfEven_mono h0
  rw [show ((0 : ℚ)) = ((0 : ℤ) : ℚ) by simp, roundHalfEven_intCast] at this
  exact_mod_cast this

theorem fl_binade {x : ℚ} (hx : 0 < x) :
    (2 : ℚ) ^ Int.log 2 x ≤ fl x ∧ fl x ≤ 2 ^ (Int.log 2 x + 1) := by
  have hlo : (2 : ℚ) ^ Int.log 2 x ≤ x := by
    simpa using Int.zpow_log_le_self (b := 2) (r := x) (by norm_num) hx
  have hhi : x < (2 : ℚ) ^ (Int.log 2 x + 1) := by
    simpa using Int.lt_zpow_succ_log_self (b := 2) (by norm_num) x
  have hq := two_zpow_pos (Int.log 2 x - 52)
  have hfl : fl x = (roundHalfEven (x / 2 ^ (Int.log 2 x - 52)) : ℚ) *
      2 ^ (Int.log 2 x - 52) := by
    unfold fl ulpExp
    rw [abs_of_pos hx]
  have e1 : (2 : ℚ) ^ Int.log 2 x = ((2 ^ 52 : ℤ) : ℚ) * 2 ^ (Int.log 2 x - 52) := by
    rw [zpow_sub₀ (by norm_num : (2 : ℚ) ≠ 0)]
    norm_num
    ring
  have e2 : (2 : ℚ) ^ (Int.log 2 x + 1) = ((2 ^ 53 : ℤ) : ℚ) * 2 ^ (Int.log 2 x - 52) := by
    rw [zpow_sub₀ (by norm_num : (2 : ℚ) ≠ 0), zpow_add₀ (by norm_num : (2 : ℚ) ≠ 0)]
    norm_num
    ring
  have h1 : ((2 ^ 52 : ℤ) : ℚ) ≤ x / 2 ^ (Int.log 2 x - 52) := by
    rw [le_div_iff₀ hq, ← e1]
    exact hlo
  have h2 : x / 2 ^ (Int.log 2 x - 52) ≤ ((2 ^ 53 : ℤ) : ℚ) := by
    rw [div_le_iff₀ hq, ← e2]
    exact hhi.le
  have r1 := roundHalfEven_mono h1
  have r2 := roundHalfEven_mono h2
  rw [roundHalfEven_intCast] at r1 r2
  rw [hfl, e1, e2]
  constructor
  · exact mul_le_mul_of_nonneg_right (by exact_mod_cast r1) hq.le
  · exact mul_le_mul_of_nonneg_right (by exact_mod_cast r2) hq.le

theorem fl_mono_pos {x y : ℚ} (hx : 0 < x) (hxy : x ≤ y) : fl x ≤ fl y := by
  have hy : 0 < y := lt_of_lt_of_le hx hxy
  have hlog : Int.log 2 x ≤ Int.log 2 y := Int.log_mono_right hx hxy
  rcases lt_or_eq_of_le hlog with hlt | heq
  · calc fl x ≤ 2 ^ (Int.log 2 x + 1) := (fl_binade hx).2
      _ ≤ 2 ^ Int.log 2 y := zpow_le_zpow_right₀ (by norm_num) (by omega)
      _ ≤ fl y := (fl_binade hy).1
  · have hq := two_zpow_pos (Int.log 2 y - 52)
    unfold fl ulpExp
    rw [abs_of_pos hx, abs_of_pos hy, heq]
    apply mul_le_mul_of_nonneg_right _ hq.le
    have : x / 2 ^ (Int.log 2 y - 52) ≤ y / 2 ^ (Int.log 2 y - 52) :=
      div_le_div_of_nonneg_right hxy hq.le
    exact_mod_cast roundHalfEven_mono this

theorem fl_mono {x y : ℚ} (hx : 0 ≤ x) (hxy : x ≤ y) : fl x ≤ fl y := by
  rcases eq_or_lt_of_le hx with h | h
  · rw [← h, fl_zero]
    exact fl_nonneg (le_trans hx hxy)
  · exact fl_mono_pos h hxy

theorem fl_one : fl 1 = 1 := by
  rw [fl_eq_pos 1 (-52) (2 ^ 52) (by norm_num) (by norm_num) (by norm_num) (by norm_num)]
  norm_num

theorem fl_fl {x : ℚ} (hx : 0 ≤ x) : fl (fl x) = fl x := by
  rcases eq_or_lt_of_le hx with h | h
  · rw [← h, fl_zero, fl_zero]
  have hq := two_zpow_pos (Int.log 2 x - 52)
  have hfl : fl x = (roundHalfEven (x / 2 ^ (Int.log 2 x - 52)) : ℚ) *
      2 ^ (Int.log 2 x - 52) := by
    unfold fl ulpExp
    rw [abs_of_pos h]
  obtain ⟨hb1, hb2⟩ := fl_binade h
  have e1 : (2 : ℚ) ^ (Int.log 2 x - 52 + 52) = 2 ^ Int.log 2 x := by
    congr 1; ring
  have e2 : (2 : ℚ) ^ (Int.log 2 x - 52 + 53) = 2 ^ (Int.log 2 x + 1) := by
    congr 1; ring
  rcases lt_or_eq_of_le hb2 with hlt | heq
  · have key := fl_eq_pos (fl x) (Int.log 2 x - 52)
      (roundHalfEven (x / 2 ^ (Int.log 2 x - 52)))
      (by rw [e1]; exact hb1) (by rw [e2]; exact hlt)
      (by rw [hfl, mul_div_assoc, div_self (ne_of_gt hq), mul_one]; linarith)
      (by rw [hfl, mul_div_assoc, div_self (ne_of_gt hq), mul_one]; linarith)
    rw [key, ← hfl]
  · have e3 : (2 : ℚ) ^ (Int.log 2 x - 51 + 52) = 2 ^ (Int.log 2 x + 1) := by
      congr 1; ring
    have e4 : (2 : ℚ) ^ (Int.log 2 x + 1) / 2 ^ (Int.log 2 x - 51) = 2 ^ (52 : ℤ) := by
      rw [← zpow_sub₀ (by norm_num : (2 : ℚ) ≠ 0)]
      congr 1; ring
    have key := fl_eq_pos (fl x) (Int.log 2 x - 51) (2 ^ 52)
      (by rw [e3, heq])
      (by
        rw [heq]
        exact zpow_lt_zpow_right₀ (by norm_num) (by omega))
      (by rw [heq, e4]; norm_num)
      (by rw [heq, e4]; norm_num)
    rw [key, heq]
    have : ((2 ^ 52 : ℤ) : ℚ) = 2 ^ (52 : ℤ) := by norm_num
    rw [this, ← zpow_add₀ (by norm_num : (2 : ℚ) ≠ 0)]
    congr 1; ring

theorem fl_le {x : ℚ} (hx : 0 ≤ x) : fl x ≤ x * (1 + 1 / 2 ^ 53) := by
  have h := abs_fl_sub_le x
  rw [abs_of_nonneg hx, abs_le] at h
  have e : (2 : ℚ) ^ (-53 : ℤ) = 1 / 2 ^ 53 := by norm_num
  rw [e] at h
  linarith [h.2]

theorem le_fl {x : ℚ} (hx : 0 ≤ x) : x * (1 - 1 / 2 ^ 53) ≤ fl x := by
  have h := abs_fl_sub_le x
  rw [abs_of_nonneg hx, abs_le] at h
  have e : (2 : ℚ) ^ (-53 : ℤ) = 1 / 2 ^ 53 := by norm_num
  rw [e] at h
  linarith [h.1]

theorem fl_pos {x : ℚ} (hx : 0 < x) : 0 < fl x :=
  lt_of_lt_of_le (mul_pos hx (by norm_num)) (le_fl hx.le)

theorem le_fl_mul {x : ℚ} (hx : 0 ≤ x) : x ≤ fl x * (1 + 1 / 2 ^ 52) := by
  have h := le_fl hx
  have h0 := fl_nonneg hx
  nlinarith

theorem fl_mul_le {x : ℚ} (hx : 0 ≤ x) : fl x * (1 - 1 / 2 ^ 52) ≤ x := by
  have h := fl_le hx
  have h0 := fl_nonneg hx
  nlinarith

theorem fl_of_bounds (x : ℚ) (e : ℤ) (hlo : 2 ^ (e + 52) ≤ x) (hhi : x < 2 ^ (e + 53)) :
    fl x = (roundHalfEven (x / 2 ^ e) : ℚ) * 2 ^ e := by
  have hx : 0 < x := lt_of_lt_of_le (two_zpow_pos _) hlo
  have hlog : Int.log 2 |x| = e + 52 := by
    rw [abs_of_pos hx]
    exact log_eq_of_bounds hlo (by simpa [add_assoc] using hhi)
  have hexp : ulpExp x = e := by
    unfold ulpExp
    omega
  unfold fl
  rw [hexp]

/-! ### Bounds for lines 221-255 in double arithmetic -/

theorem foldl_fl_upper (l : List ℚ) :
    ∀ acc : ℚ, 0 ≤ acc → (∀ x ∈ l, 0 ≤ x) →
      0 ≤ l.foldl (fun acc x => fl (acc + x)) acc ∧
        acc + l.sum ≤ l.foldl (fun acc x => fl (acc + x)) acc *
          (1 + 1 / 2 ^ 52) ^ l.length := by
  induction l with
  | nil => intro acc hacc _; simpa using hacc
  | cons x xs ih =>
    intro acc hacc hl
    have hx : 0 ≤ x := hl x (List.mem_cons_self _ _)
    have hxs : ∀ y ∈ xs, 0 ≤ y := fun y hy => hl y (List.mem_cons_of_mem _ hy)
    have hsum : 0 ≤ xs.sum := List.sum_nonneg hxs
    have hax : 0 ≤ acc + x := add_nonneg hacc hx
    obtain ⟨h0, h1⟩ := ih (fl (acc + x)) (fl_nonneg hax) hxs
    refine ⟨by simpa using h0, ?_⟩
    have h2 := le_fl_mul hax
    simp only [List.foldl_cons, List.sum_cons, List.length_cons, pow_succ]
    have ha : (1 : ℚ) ≤ 1 + 1 / 2 ^ 52 := by norm_num
    calc acc + (x + xs.sum) = (acc + x) + xs.sum := by ring
      _ ≤ fl (acc + x) * (1 + 1 / 2 ^ 52) + xs.sum * (1 + 1 / 2 ^ 52) := by
          have : xs.sum ≤ xs.sum * (1 + 1 / 2 ^ 52) := le_mul_of_one_le_right hsum ha
          linarith
      _ = (fl (acc + x) + xs.sum) * (1 + 1 / 2 ^ 52) := by ring
      _ ≤ _ := by
          have := mul_le_mul_of_nonneg_right h1 (le_trans zero_le_one ha)
          linarith

theorem foldl_fl_lower (l : List ℚ) :
    ∀ acc : ℚ, 0 ≤ acc → (∀ x ∈ l, 0 ≤ x) →
      l.foldl (fun acc x => fl (acc + x)) acc * (1 - 1 / 2 ^ 52) ^ l.length ≤
        acc + l.sum := by
  induction l with
  | nil => intro acc _ _; simp
  | cons x xs ih =>
    intro acc hacc hl
    have hx : 0 ≤ x := hl x (List.mem_cons_self _ _)
    have hxs : ∀ y ∈ xs, 0 ≤ y := fun y hy => hl y (List.mem_cons_of_mem _ hy)
    have hsum : 0 ≤ xs.sum := List.sum_nonneg hxs
    have hax : 0 ≤ acc + x := add_nonneg hacc hx
    have h1 := ih (fl (acc + x)) (fl_nonneg hax) hxs
    have h2 := fl_mul_le hax
    simp only [List.foldl_cons, List.sum_cons, List.length_cons, pow_succ]
    have hb0 : (0 : ℚ) ≤ 1 - 1 / 2 ^ 52 := by norm_num
    have hb1 : (1 : ℚ) - 1 / 2 ^ 52 ≤ 1 := by norm_num
    calc _ = (xs.foldl (fun acc x => fl (acc + x)) (fl (acc + x)) *
            (1 - 1 / 2 ^ 52) ^ xs.length) * (1 - 1 / 2 ^ 52) := by ring
      _ ≤ (fl (acc + x) + xs.sum) * (1 - 1 / 2 ^ 52) := mul_le_mul_of_nonneg_right h1 hb0
      _ = fl (acc + x) * (1 - 1 / 2 ^ 52) + xs.sum * (1 - 1 / 2 ^ 52) := by ring
      _ ≤ (acc + x) + xs.sum := by
          have : xs.sum * (1 - 1 / 2 ^ 52) ≤ xs.sum := mul_le_of_le_one_right hsum hb1
          linarith
      _ = acc + (x + xs.sum) := by ring

theorem Sum_fl_bounds (l : List ℚ) (hl : ∀ x ∈ l, 0 ≤ x) :
    0 ≤ Sum_fl l ∧ l.sum ≤ Sum_fl l * (1 + 1 / 2 ^ 52) ^ l.length ∧
      Sum_fl l * (1 - 1 / 2 ^ 52) ^ l.length ≤ l.sum := by
  obtain ⟨h0, h1⟩ := foldl_fl_upper l 0 (le_refl 0) hl
  have h2 := foldl_fl_lower l 0 (le_refl 0) hl
  rw [zero_add] at h1 h2
  exact ⟨h0, h1, h2⟩

theorem theo_size_fl_nonneg (vt v : ℚ) (hvt : 0 ≤ vt) (hv : 0 ≤ v) :
    0 ≤ theo_size_fl vt v := by
  unfold theo_size_fl
  split_ifs
  · exact le_refl 0
  · exact fl_nonneg (div_nonneg hvt hv)

theorem theo_sizes_fl_nonneg (vt : ℚ) (av : List ℚ) (hvt : 0 ≤ vt) (hav : ∀ v ∈ av, 0 ≤ v) :
    ∀ s ∈ theo_sizes_fl vt av, 0 ≤ s := by
  intro s hs
  simp only [theo_sizes_fl, List.mem_map] at hs
  obtain ⟨v, hv, rfl⟩ := hs
  exact theo_size_fl_nonneg vt v hvt (hav v hv)

theorem theo_sizes_fl_length (vt : ℚ) (av : List ℚ) :
    (theo_sizes_fl vt av).length = av.length := by
  simp [theo_sizes_fl]

theorem fl_theo_size_fl (vt v : ℚ) (hvt : 0 ≤ vt) (hv : 0 ≤ v) :
    fl (theo_size_fl vt v) = theo_size_fl vt v := by
  unfold theo_size_fl
  split_ifs
  · exact fl_zero
  · exact fl_fl (div_nonneg hvt hv)

theorem adj_factor_fl_bounds (ml t : ℚ) (hml : 0 < ml) (ht : 0 ≤ t) :
    0 < adj_factor_fl ml t ∧ adj_factor_fl ml t ≤ 1 ∧
      adj_factor_fl ml t * t ≤ ml * (1 + 1 / 2 ^ 53) ∧
      (ml < t → ml * (1 - 1 / 2 ^ 53) ≤ adj_factor_fl ml t * t) := by
  unfold adj_factor_fl
  by_cases h : t > ml
  · have htpos : 0 < t := lt_trans hml h
    have hq : 0 < ml / t := div_pos hml htpos
    have h1 := fl_le hq.le
    have h2 := le_fl hq.le
    have hmt : ml / t * t = ml := div_mul_cancel₀ _ (ne_of_gt htpos)
    simp only [if_pos h]
    refine ⟨fl_pos hq, ?_, ?_, ?_⟩
    · have := fl_mono hq.le ((div_le_one htpos).mpr h.le)
      rwa [fl_one] at this
    · calc fl (ml / t) * t ≤ ml / t * (1 + 1 / 2 ^ 53) * t :=
            mul_le_mul_of_nonneg_right h1 ht
        _ = ml / t * t * (1 + 1 / 2 ^ 53) := by ring
        _ = ml * (1 + 1 / 2 ^ 53) := by rw [hmt]
    · intro _
      calc ml * (1 - 1 / 2 ^ 53) = ml / t * t * (1 - 1 / 2 ^ 53) := by rw [hmt]
        _ = ml / t * (1 - 1 / 2 ^ 53) * t := by ring
        _ ≤ fl (ml / t) * t := mul_le_mul_of_nonneg_right h2 ht
  · simp only [if_neg h]
    refine ⟨one_pos, le_refl 1, ?_, fun h' => absurd h' h⟩
    have : t ≤ ml := not_lt.mp h
    have h53 : (0 : ℚ) ≤ 1 / 2 ^ 53 := by norm_num
    nlinarith

theorem inRange_pos {x : ℚ} (h : inRange x) : 0 < x :=
  lt_of_lt_of_le (by norm_num) h.1

theorem nonneg_of_zero_or_inRange {x : ℚ} (h : x = 0 ∨ inRange x) : 0 ≤ x := by
  rcases h with h | h
  · exact h.ge
  · exact (inRange_pos h).le

theorem theo_sizes_fl_getElem? (vt : ℚ) (av : List ℚ) (i : ℕ) :
    (theo_sizes_fl vt av)[i]? = (av[i]?).map (theo_size_fl vt) := by
  simp [theo_sizes_fl]

theorem constrained_sizes_fl_getElem? (vt ml : ℚ) (av : List ℚ) (i : ℕ) :
    (constrained_sizes_fl vt ml av)[i]? =
      (av[i]?).map (fun v => fl (theo_size_fl vt v *
        adj_factor_fl ml (total_size_fl vt av))) := by
  simp [constrained_sizes_fl, theo_sizes_fl, Function.comp_def]

theorem total_size_fl_nonneg (vt : ℚ) (av : List ℚ) (hvt : 0 ≤ vt)
    (hav : ∀ v ∈ av, 0 ≤ v) : 0 ≤ total_size_fl vt av :=
  (Sum_fl_bounds _ (theo_sizes_fl_nonneg vt av hvt hav)).1

theorem sum_map_mul_const (l : List ℚ) (c : ℚ) :
    (l.map (fun s => s * c)).sum = l.sum * c := by
  rw [List.sum_map_mul_right]
  simp

theorem constrained_sizes_fl_sum_le (vt ml : ℚ) (av : List ℚ) (hvt : 0 ≤ vt)
    (hml : 0 < ml) (hav : ∀ v ∈ av, 0 ≤ v) :
    (constrained_sizes_fl vt ml av).sum ≤ ml * (1 + 1 / 2 ^ 52) ^ (av.length + 2) := by
  have ht := theo_sizes_fl_nonneg vt av hvt hav
  obtain ⟨hT0, hup, _⟩ := Sum_fl_bounds _ ht
  rw [theo_sizes_fl_length] at hup
  obtain ⟨hf0, _, hfT, _⟩ := adj_factor_fl_bounds ml (total_size_fl vt av) hml
    (total_size_fl_nonneg vt av hvt hav)
  have ha : (0 : ℚ) ≤ (1 + 1 / 2 ^ 52) ^ av.length := by positivity
  have h1 : (constrained_sizes_fl vt ml av).sum ≤
      (theo_sizes_fl vt av).sum * adj_factor_fl ml (total_size_fl vt av) *
        (1 + 1 / 2 ^ 53) := by
    unfold constrained_sizes_fl
    rw [mul_assoc, ← sum_map_mul_const]
    apply List.sum_le_sum
    intro s hs
    rw [← mul_assoc]
    exact fl_le (mul_nonneg (ht s hs) hf0.le)
  have h2 : (theo_sizes_fl vt av).sum * adj_factor_fl ml (total_size_fl vt av) ≤
      ml * (1 + 1 / 2 ^ 53) * (1 + 1 / 2 ^ 52) ^ av.length := by
    calc (theo_sizes_fl vt av).sum * adj_factor_fl ml (total_size_fl vt av)
        ≤ Sum_fl (theo_sizes_fl vt av) * (1 + 1 / 2 ^ 52) ^ av.length *
            adj_factor_fl ml (total_size_fl vt av) :=
          mul_le_mul_of_nonneg_right hup hf0.le
      _ = adj_factor_fl ml (total_size_fl vt av) * total_size_fl vt av *
            (1 + 1 / 2 ^ 52) ^ av.length := by
          unfold total_size_fl
          ring
      _ ≤ ml * (1 + 1 / 2 ^ 53) * (1 + 1 / 2 ^ 52) ^ av.length :=
          mul_le_mul_of_nonneg_right hfT ha
  have h3 : (1 : ℚ) + 1 / 2 ^ 53 ≤ 1 + 1 / 2 ^ 52 := by norm_num
  have h53 : (0 : ℚ) ≤ 1 + 1 / 2 ^ 53 := by norm_num
  calc (constrained_sizes_fl vt ml av).sum
      ≤ ml * (1 + 1 / 2 ^ 53) * (1 + 1 / 2 ^ 52) ^ av.length * (1 + 1 / 2 ^ 53) :=
        le_trans h1 (mul_le_mul_of_nonneg_right h2 h53)
    _ = ml * (1 + 1 / 2 ^ 52) ^ av.length * ((1 + 1 / 2 ^ 53) * (1 + 1 / 2 ^ 53)) := by ring
    _ ≤ ml * (1 + 1 / 2 ^ 52) ^ av.length * ((1 + 1 / 2 ^ 52) * (1 + 1 / 2 ^ 52)) := by
        apply mul_le_mul_of_nonneg_left _ (mul_nonneg hml.le ha)
        exact mul_le_mul h3 h3 h53 (le_trans h53 h3)
    _ = ml * (1 + 1 / 2 ^ 52) ^ (av.length + 2) := by ring

theorem constrained_sizes_fl_sum_ge (vt ml : ℚ) (av : List ℚ) (hvt : 0 ≤ vt)
    (hml : 0 < ml) (hav : ∀ v ∈ av, 0 ≤ v) (hscaled : ml < total_size_fl vt av) :
    ml * (1 - 1 / 2 ^ 52) ^ (av.length + 2) ≤ (constrained_sizes_fl vt ml av).sum := by
  have ht := theo_sizes_fl_nonneg vt av hvt hav
  obtain ⟨hT0, _, hlow⟩ := Sum_fl_bounds _ ht
  rw [theo_sizes_fl_length] at hlow
  obtain ⟨hf0, _, _, hfT⟩ := adj_factor_fl_bounds ml (total_size_fl vt av) hml
    (total_size_fl_nonneg vt av hvt hav)
  have hb : (0 : ℚ) ≤ (1 - 1 / 2 ^ 52) ^ av.length := by
    apply pow_nonneg
    norm_num
  have h1 : (theo_sizes_fl vt av).sum * adj_factor_fl ml (total_size_fl vt av) *
      (1 - 1 / 2 ^ 53) ≤ (constrained_sizes_fl vt ml av).sum := by
    unfold constrained_sizes_fl
    rw [mul_assoc, ← sum_map_mul_const]
    apply List.sum_le_sum
    intro s hs
    rw [← mul_assoc]
    exact le_fl (mul_nonneg (ht s hs) hf0.le)
  have h2 : ml * (1 - 1 / 2 ^ 53) * (1 - 1 / 2 ^ 52) ^ av.length ≤
      (theo_sizes_fl vt av).sum * adj_factor_fl ml (total_size_fl vt av) := by
    calc ml * (1 - 1 / 2 ^ 53) * (1 - 1 / 2 ^ 52) ^ av.length
        ≤ adj_factor_fl ml (total_size_fl vt av) * total_size_fl vt av *
            (1 - 1 / 2 ^ 52) ^ av.length :=
          mul_le_mul_of_nonneg_right (hfT hscaled) hb
      _ = Sum_fl (theo_sizes_fl vt av) * (1 - 1 / 2 ^ 52) ^ av.length *
            adj_factor_fl ml (total_size_fl vt av) := by
          unfold total_size_fl
          ring
      _ ≤ (theo_sizes_fl vt av).sum * adj_factor_fl ml (total_size_fl vt av) :=
          mul_le_mul_of_nonneg_right hlow hf0.le
  have h3 : (1 : ℚ) - 1 / 2 ^ 52 ≤ 1 - 1 / 2 ^ 53 := by norm_num
  have h52 : (0 : ℚ) ≤ 1 - 1 / 2 ^ 52 := by norm_num
  have h53 : (0 : ℚ) ≤ 1 - 1 / 2 ^ 53 := by norm_num
  calc ml * (1 - 1 / 2 ^ 52) ^ (av.length + 2)
      = ml * (1 - 1 / 2 ^ 52) ^ av.length * ((1 - 1 / 2 ^ 52) * (1 - 1 / 2 ^ 52)) := by ring
    _ ≤ ml * (1 - 1 / 2 ^ 52) ^ av.length * ((1 - 1 / 2 ^ 53) * (1 - 1 / 2 ^ 53)) := by
        apply mul_le_mul_of_nonneg_left _ (mul_nonneg hml.le hb)
        exact mul_le_mul h3 h3 h52 h53
    _ = ml * (1 - 1 / 2 ^ 53) * (1 - 1 / 2 ^ 52) ^ av.length * (1 - 1 / 2 ^ 53) := by ring
    _ ≤ _ := le_trans (mul_le_mul_of_nonneg_right h2 h53) h1

theorem constrained_sizes_fl_of_le (vt ml : ℚ) (av : List ℚ) (hvt : 0 ≤ vt)
    (hav : ∀ v ∈ av, 0 ≤ v) (h : total_size_fl vt av ≤ ml) :
    adj_factor_fl ml (total_size_fl vt av) = 1 ∧
      constrained_sizes_fl vt ml av = theo_sizes_fl vt av := by
  have hf : adj_factor_fl ml (total_size_fl vt av) = 1 := by
    simp [adj_factor_fl, not_lt.mpr h]
  refine ⟨hf, ?_⟩
  unfold constrained_sizes_fl theo_sizes_fl
  rw [hf, List.map_map]
  apply List.map_congr_left
  intro v hv
  simp only [Function.comp, mul_one]
  exact fl_theo_size_fl vt v hvt (hav v hv)

theorem abs_fl_sub_le_of_nonneg {x : ℚ} (hx : 0 ≤ x) : |fl x - x| ≤ 1 / 2 ^ 53 * x := by
  have h := abs_fl_sub_le x
  rw [abs_of_nonneg hx] at h
  have e : (2 : ℚ) ^ (-53 : ℤ) = 1 / 2 ^ 53 := by norm_num
  rwa [e] at h

theorem cross_products_fl (ti tj f : ℚ) (hti : 0 ≤ ti) (htj : 0 ≤ tj) (hf : 0 ≤ f) :
    |fl (ti * f) * tj - fl (tj * f) * ti| ≤ 1 / 2 ^ 52 * (ti * tj * f) := by
  have hi := abs_fl_sub_le_of_nonneg (mul_nonneg hti hf)
  have hj := abs_fl_sub_le_of_nonneg (mul_nonneg htj hf)
  have e : fl (ti * f) * tj - fl (tj * f) * ti =
      (fl (ti * f) - ti * f) * tj - (fl (tj * f) - tj * f) * ti := by ring
  rw [e]
  calc |(fl (ti * f) - ti * f) * tj - (fl (tj * f) - tj * f) * ti|
      ≤ |(fl (ti * f) - ti * f) * tj| + |(fl (tj * f) - tj * f) * ti| := abs_sub _ _
    _ = |fl (ti * f) - ti * f| * tj + |fl (tj * f) - tj * f| * ti := by
        rw [abs_mul, abs_mul, abs_of_nonneg htj, abs_of_nonneg hti]
    _ ≤ 1 / 2 ^ 53 * (ti * f) * tj + 1 / 2 ^ 53 * (tj * f) * ti :=
        add_le_add (mul_le_mul_of_nonneg_right hi htj) (mul_le_mul_of_nonneg_right hj hti)
    _ = 1 / 2 ^ 52 * (ti * tj * f) := by ring

theorem ratio_fl (t f : ℚ) (ht : 0 < t) (hf : 0 ≤ f) :
    |fl (t * f) / t - f| ≤ 1 / 2 ^ 53 * f := by
  have h := abs_fl_sub_le_of_nonneg (mul_nonneg ht.le hf)
  have e : fl (t * f) / t - f = (fl (t * f) - t * f) / t := by
    field_simp
  rw [e, abs_div, abs_of_pos ht, div_le_iff₀ ht]
  calc |fl (t * f) - t * f| ≤ 1 / 2 ^ 53 * (t * f) := h
    _ = 1 / 2 ^ 53 * f * t := by ring

theorem theo_size_fl_anti (vt a b : ℚ) (hvt : 0 < vt) (ha : 0 < a) (hab : a < b) :
    theo_size_fl vt b ≤ theo_size_fl vt a := by
  have hb : 0 < b := lt_trans ha hab
  simp only [theo_size_fl, ne_of_gt ha, ne_of_gt hb, if_false]
  exact fl_mono (div_pos hvt hb).le (div_le_div_of_nonneg_left hvt.le ha hab.le)

theorem quotient_fl_bounds (x p : ℚ) (hx : 0 ≤ x) (hp : 0 < p) :
    fl (fl x / p) * p ≤ x * (1 + 1 / 2 ^ 53) ^ 2 ∧
      x * (1 - 1 / 2 ^ 53) ^ 2 ≤ fl (fl x / p) * p := by
  have h0 := fl_nonneg hx
  have hq : 0 ≤ fl x / p := div_nonneg h0 hp.le
  have h1 := fl_le hx
  have h2 := le_fl hx
  have h3 := fl_le hq
  have h4 := le_fl hq
  have hc : fl x / p * p = fl x := div_mul_cancel₀ _ (ne_of_gt hp)
  have hu : (0 : ℚ) ≤ 1 + 1 / 2 ^ 53 := by norm_num
  have hl : (0 : ℚ) ≤ 1 - 1 / 2 ^ 53 := by norm_num
  constructor
  · calc fl (fl x / p) * p ≤ fl x / p * (1 + 1 / 2 ^ 53) * p :=
          mul_le_mul_of_nonneg_right h3 hp.le
      _ = fl x * (1 + 1 / 2 ^ 53) := by rw [mul_right_comm, hc]
      _ ≤ x * (1 + 1 / 2 ^ 53) * (1 + 1 / 2 ^ 53) := mul_le_mul_of_nonneg_right h1 hu
      _ = x * (1 + 1 / 2 ^ 53) ^ 2 := by ring
  · calc x * (1 - 1 / 2 ^ 53) ^ 2 = x * (1 - 1 / 2 ^ 53) * (1 - 1 / 2 ^ 53) := by ring
      _ ≤ fl x * (1 - 1 / 2 ^ 53) := mul_le_mul_of_nonneg_right h2 hl
      _ = fl x / p * (1 - 1 / 2 ^ 53) * p := by rw [mul_right_comm, hc]
      _ ≤ fl (fl x / p) * p := mul_le_mul_of_nonneg_right h4 hp.le

theorem target_position_fl_bounds (te cs p : ℚ) (hx : 0 ≤ te * cs) (hp : 0 < p) :
    (target_position_fl te cs p : ℚ) * p ≤ te * cs * (1 + 1 / 2 ^ 53) ^ 2 ∧
      te * cs * (1 - 1 / 2 ^ 53) ^ 2 < ((target_position_fl te cs p : ℚ) + 1) * p := by
  obtain ⟨h1, h2⟩ := quotient_fl_bounds (te * cs) p hx hp
  have hfl := Int.floor_le (fl (fl (te * cs) / p))
  have hlt := Int.lt_floor_add_one (fl (fl (te * cs) / p))
  unfold target_position_fl
  constructor
  · exact le_trans (mul_le_mul_of_nonneg_right hfl hp.le) h1
  · exact lt_of_le_of_lt h2 (mul_lt_mul_of_pos_right hlt hp)

theorem target_positions_fl_getElem? (cfg : Config) (te : ℚ) (assets : List AssetBar)
    (i : ℕ) (a : AssetBar) (ha : assets[i]? = some a) :
    (target_positions_fl cfg te assets)[i]? =
      some (target_position_fl te
        (fl (theo_size_fl cfg.VOL_TARGET a.ann_vol *
          adj_factor_fl cfg.MAX_LEVERAGE
            (total_size_fl cfg.VOL_TARGET (assets.map AssetBar.ann_vol))))
        a.price) := by
  simp [target_positions_fl, List.getElem?_zipWith, constrained_sizes_fl_getElem?, ha]

theorem target_positions_fl_eq_map (cfg : Config) (te : ℚ) (assets : List AssetBar) :
    target_positions_fl cfg te assets =
      assets.map (fun a => target_position_fl te
        (fl (theo_size_fl cfg.VOL_TARGET a.ann_vol *
          adj_factor_fl cfg.MAX_LEVERAGE
            (total_size_fl cfg.VOL_TARGET (assets.map AssetBar.ann_vol))))
        a.price) := by
  simp only [target_positions_fl, constrained_sizes_fl, theo_sizes_fl, List.map_map,
    List.zipWith_map_left, List.zipWith_same]
  rfl

theorem constrained_sizes_fl_eq_map (cfg : Config) (assets : List AssetBar) :
    constrained_sizes_fl cfg.VOL_TARGET cfg.MAX_LEVERAGE (assets.map AssetBar.ann_vol) =
      assets.map (fun a => fl (theo_size_fl cfg.VOL_TARGET a.ann_vol *
        adj_factor_fl cfg.MAX_LEVERAGE
          (total_size_fl cfg.VOL_TARGET (assets.map AssetBar.ann_vol)))) := by
  simp only [constrained_sizes_fl, theo_sizes_fl, List.map_map]
  rfl

theorem target_notional_fl_le (cfg : Config) (te : ℚ) (assets : List AssetBar)
    (hcap : 0 ≤ te) (hprice : ∀ a ∈ assets, 0 < a.price)
    (hvol : ∀ a ∈ assets, 0 ≤ a.ann_vol)
    (hvt : 0 ≤ cfg.VOL_TARGET) (hml : 0 < cfg.MAX_LEVERAGE) :
    target_notional_fl cfg te assets ≤
      te * cfg.MAX_LEVERAGE * ((1 + 1 / 2 ^ 52) ^ (assets.length + 2) *
        (1 + 1 / 2 ^ 53) ^ 2) := by
  have hav : ∀ v ∈ assets.map AssetBar.ann_vol, 0 ≤ v := by
    intro v hv
    rw [List.mem_map] at hv
    obtain ⟨a, ha, rfl⟩ := hv
    exact hvol a ha
  have hsum := constrained_sizes_fl_sum_le cfg.VOL_TARGET cfg.MAX_LEVERAGE
    (assets.map AssetBar.ann_vol) hvt hml hav
  rw [List.length_map, constrained_sizes_fl_eq_map] at hsum
  have hf0 := (adj_factor_fl_bounds cfg.MAX_LEVERAGE
    (total_size_fl cfg.VOL_TARGET (assets.map AssetBar.ann_vol)) hml
    (total_size_fl_nonneg _ _ hvt hav)).1
  have hu : (0 : ℚ) ≤ (1 + 1 / 2 ^ 53) ^ 2 := by positivity
  unfold target_notional_fl
  rw [target_positions_fl_eq_map, List.zipWith_map_left, List.zipWith_same]
  calc (assets.map _).sum
      ≤ (assets.map (fun a => te * (1 + 1 / 2 ^ 53) ^ 2 *
          fl (theo_size_fl cfg.VOL_TARGET a.ann_vol *
            adj_factor_fl cfg.MAX_LEVERAGE
              (total_size_fl cfg.VOL_TARGET (assets.map AssetBar.ann_vol))))).sum := by
        apply List.sum_le_sum
        intro a ha
        have hcs : 0 ≤ fl (theo_size_fl cfg.VOL_TARGET a.ann_vol *
            adj_factor_fl cfg.MAX_LEVERAGE
              (total_size_fl cfg.VOL_TARGET (assets.map AssetBar.ann_vol))) :=
          fl_nonneg (mul_nonneg (theo_size_fl_nonneg _ _ hvt (hvol a ha)) hf0.le)
        have := (target_position_fl_bounds te _ a.price (mul_nonneg hcap hcs)
          (hprice a ha)).1
        linarith
    _ = te * (1 + 1 / 2 ^ 53) ^ 2 *
          (assets.map (fun a => fl (theo_size_fl cfg.VOL_TARGET a.ann_vol *
            adj_factor_fl cfg.MAX_LEVERAGE
              (total_size_fl cfg.VOL_TARGET (assets.map AssetBar.ann_vol))))).sum := by
        rw [List.sum_map_mul_left]
    _ ≤ te * (1 + 1 / 2 ^ 53) ^ 2 *
          (cfg.MAX_LEVERAGE * (1 + 1 / 2 ^ 52) ^ (assets.length + 2)) :=
        mul_le_mul_of_nonneg_left hsum (mul_nonneg hcap hu)
    _ = _ := by ring

/-! ### No result of lines 221-255 leaves the normal range of a double -/

theorem fl_checked_of_pos {x : ℚ} (hlo : 1 / 2 ^ 1022 ≤ x) (hhi : x < 2 ^ 1023) :
    fl_checked x = some (fl x) := by
  have hx : 0 < x := lt_of_lt_of_le (by norm_num) hlo
  unfold fl_checked
  rw [abs_of_pos hx, if_pos (Or.inr ⟨hlo, hhi⟩)]

theorem fl_checked_zero : fl_checked 0 = some (fl 0) := by
  simp [fl_checked]

theorem mapM_eq_some_map {α β : Type} (f : α → Option β) (g : α → β) (l : List α)
    (h : ∀ x ∈ l, f x = some (g x)) : l.mapM f = some (l.map g) := by
  induction l with
  | nil => rfl
  | cons a as ih =>
    rw [List.mapM_cons, h a (List.mem_cons_self _ _),
      ih (fun x hx => h x (List.mem_cons_of_mem _ hx))]
    rfl

theorem div_inRange {x y : ℚ} (hx : inRange x) (hy : inRange y) :
    1 / 2 ^ 200 ≤ x / y ∧ x / y ≤ 2 ^ 200 := by
  have hy0 := inRange_pos hy
  obtain ⟨hx1, hx2⟩ := hx
  obtain ⟨hy1, hy2⟩ := hy
  constructor
  · rw [le_div_iff₀ hy0]
    calc 1 / 2 ^ 200 * y ≤ 1 / 2 ^ 200 * 2 ^ 100 :=
          mul_le_mul_of_nonneg_left hy2 (by norm_num)
      _ = 1 / 2 ^ 100 := by norm_num
      _ ≤ x := hx1
  · rw [div_le_iff₀ hy0]
    calc x ≤ 2 ^ 100 := hx2
      _ = 2 ^ 200 * (1 / 2 ^ 100) := by norm_num
      _ ≤ 2 ^ 200 * y := mul_le_mul_of_nonneg_left hy1 (by norm_num)

theorem fl_between {x lo hi : ℚ} (hlo0 : 0 ≤ lo) (hlo : lo ≤ x) (hhi : x ≤ hi) :
    lo / 2 ≤ fl x ∧ fl x ≤ hi * 2 := by
  have hx : 0 ≤ x := le_trans hlo0 hlo
  have h1 := le_fl hx
  have h2 := fl_le hx
  have hu : (1 : ℚ) / 2 ^ 53 ≤ 1 / 2 := by norm_num
  constructor
  · nlinarith
  · nlinarith

theorem theo_size_fl_range (vt v : ℚ) (hvt : inRange vt) (hv : v = 0 ∨ inRange v) :
    theo_size_fl_checked vt v = some (theo_size_fl vt v) ∧
      (theo_size_fl vt v = 0 ∨
        (1 / 2 ^ 201 ≤ theo_size_fl vt v ∧ theo_size_fl vt v ≤ 2 ^ 201)) := by
  unfold theo_size_fl_checked theo_size_fl
  rcases hv with rfl | hv
  · simp
  · have hv0 : v ≠ 0 := ne_of_gt (inRange_pos hv)
    obtain ⟨h1, h2⟩ := div_inRange hvt hv
    rw [if_neg hv0, if_neg hv0]
    refine ⟨fl_checked_of_pos (le_trans (by norm_num) h1)
      (lt_of_le_of_lt h2 (by norm_num)), Or.inr ?_⟩
    have hb := fl_between (by norm_num) h1 h2
    constructor
    · exact le_trans (by norm_num) hb.1
    · exact le_trans hb.2 (by norm_num)

theorem foldlM_fl_checked (l : List ℚ) :
    ∀ (acc : ℚ) (k : ℕ), fl acc = acc → (acc = 0 ∨ 1 / 2 ^ 201 ≤ acc) →
      acc ≤ k * 2 ^ 202 → k + l.length ≤ 2 ^ 20 →
      (∀ x ∈ l, fl x = x ∧ (x = 0 ∨ (1 / 2 ^ 201 ≤ x ∧ x ≤ 2 ^ 201))) →
      l.foldlM (fun acc x => fl_checked (acc + x)) acc =
          some (l.foldl (fun acc x => fl (acc + x)) acc) ∧
        (l.foldl (fun acc x => fl (acc + x)) acc = 0 ∨
          1 / 2 ^ 201 ≤ l.foldl (fun acc x => fl (acc + x)) acc) ∧
        l.foldl (fun acc x => fl (acc + x)) acc ≤ ((k + l.length : ℕ) : ℚ) * 2 ^ 202 := by
  induction l with
  | nil =>
    intro acc k _ hlo hhi _ _
    exact ⟨rfl, hlo, by simpa using hhi⟩
  | cons a as ih =>
    intro acc k hfix hlo hhi hlen hl
    have ha := hl a (List.mem_cons_self _ _)
    have has : ∀ x ∈ as, fl x = x ∧ (x = 0 ∨ (1 / 2 ^ 201 ≤ x ∧ x ≤ 2 ^ 201)) :=
      fun x hx => hl x (List.mem_cons_of_mem _ hx)
    have hacc0 : 0 ≤ acc := by
      rcases hlo with h | h
      · exact h.ge
      · exact le_trans (by norm_num) h
    have ha0 : 0 ≤ a := by
      rcases ha.2 with h | h
      · exact h.ge
      · exact le_trans (by norm_num) h.1
    have ha2 : a ≤ 2 ^ 201 := by
      rcases ha.2 with h | h
      · rw [h]
        norm_num
      · exact h.2
    have hk : (k : ℚ) + 1 ≤ 2 ^ 20 := by
      have h1 : k + 1 ≤ 2 ^ 20 := by
        simp only [List.length_cons] at hlen
        omega
      exact_mod_cast h1
    have hk0 : (0 : ℚ) ≤ k := Nat.cast_nonneg k
    have hsum0 : 0 ≤ acc + a := add_nonneg hacc0 ha0
    have hsum_hi : acc + a ≤ (k : ℚ) * 2 ^ 202 + 2 ^ 201 := add_le_add hhi ha2
    -- the rounded sum stays below the next multiple of 2 ^ 202
    have hfl_hi : fl (acc + a) ≤ ((k + 1 : ℕ) : ℚ) * 2 ^ 202 := by
      have h1 := fl_le hsum0
      have h2 : (acc + a) * (1 + 1 / 2 ^ 53) ≤
          ((k : ℚ) * 2 ^ 202 + 2 ^ 201) * (1 + 1 / 2 ^ 53) :=
        mul_le_mul_of_nonneg_right hsum_hi (by norm_num)
      have h3 : ((k : ℚ) * 2 ^ 202 + 2 ^ 201) * (1 + 1 / 2 ^ 53) ≤
          ((k : ℚ) + 1) * 2 ^ 202 := by
        nlinarith
      push_cast
      linarith
    -- the rounded sum is 0 or at least 2 ^ -201
    have hfl_lo : fl (acc + a) = 0 ∨ 1 / 2 ^ 201 ≤ fl (acc + a) := by
      rcases hlo with h | h
      · rcases ha.2 with h' | h'
        · left
          rw [h, h', add_zero, fl_zero]
        · right
          rw [h, zero_add, ha.1]
          exact h'.1
      · right
        calc 1 / 2 ^ 201 ≤ acc := h
          _ = fl acc := hfix.symm
          _ ≤ fl (acc + a) := fl_mono hacc0 (le_add_of_nonneg_right ha0)
    have hchk : fl_checked (acc + a) = some (fl (acc + a)) := by
      by_cases h0 : acc + a = 0
      · rw [h0]
        exact fl_checked_zero
      · have hpos : 0 < acc + a := lt_of_le_of_ne hsum0 (Ne.symm h0)
        have hlow : 1 / 2 ^ 201 ≤ acc + a := by
          rcases hlo with h | h
          · rcases ha.2 with h' | h'
            · exact absurd (by rw [h, h', add_zero]) h0
            · linarith [h'.1]
          · linarith
        refine fl_checked_of_pos (le_trans (by norm_num) hlow) (lt_of_le_of_lt hsum_hi ?_)
        have : (k : ℚ) * 2 ^ 202 ≤ 2 ^ 20 * 2 ^ 202 :=
          mul_le_mul_of_nonneg_right (by linarith) (by norm_num)
        have h4 : (2 : ℚ) ^ 20 * 2 ^ 202 + 2 ^ 201 < 2 ^ 1023 := by norm_num
        linarith
    have hlen2 : (k + 1) + as.length ≤ 2 ^ 20 := by
      simp only [List.length_cons] at hlen
      omega
    obtain ⟨h1, h2, h3⟩ := ih (fl (acc + a)) (k + 1) (fl_fl hsum0) hfl_lo hfl_hi hlen2 has
    refine ⟨?_, ?_, ?_⟩
    · rw [List.foldlM_cons, hchk]
      exact h1
    · exact h2
    · have he : k + (a :: as).length = k + 1 + as.length := by
        simp only [List.length_cons]
        omega
      rw [he]
      exact h3

theorem theo_sizes_fl_range (vt : ℚ) (av : List ℚ) (hvt : inRange vt)
    (hav : ∀ v ∈ av, v = 0 ∨ inRange v) :
    av.mapM (theo_size_fl_checked vt) = some (theo_sizes_fl vt av) ∧
      ∀ s ∈ theo_sizes_fl vt av,
        fl s = s ∧ (s = 0 ∨ (1 / 2 ^ 201 ≤ s ∧ s ≤ 2 ^ 201)) := by
  constructor
  · exact mapM_eq_some_map _ _ _ (fun v hv => (theo_size_fl_range vt v hvt (hav v hv)).1)
  · intro s hs
    unfold theo_sizes_fl at hs
    rw [List.mem_map] at hs
    obtain ⟨v, hv, rfl⟩ := hs
    exact ⟨fl_theo_size_fl vt v (inRange_pos hvt).le (nonneg_of_zero_or_inRange (hav v hv)),
      (theo_size_fl_range vt v hvt (hav v hv)).2⟩

theorem total_size_fl_range (vt : ℚ) (av : List ℚ) (hvt : inRange vt)
    (hav : ∀ v ∈ av, v = 0 ∨ inRange v) (hlen : av.length ≤ 2 ^ 20) :
    Sum_fl_checked (theo_sizes_fl vt av) = some (total_size_fl vt av) ∧
      total_size_fl vt av ≤ 2 ^ 222 := by
  have h := foldlM_fl_checked (theo_sizes_fl vt av) 0 0 fl_zero (Or.inl rfl) (by simp)
    (by rw [theo_sizes_fl_length]; omega) (theo_sizes_fl_range vt av hvt hav).2
  refine ⟨h.1, le_trans h.2.2 ?_⟩
  rw [theo_sizes_fl_length, Nat.zero_add]
  have h1 : ((av.length : ℕ) : ℚ) ≤ 2 ^ 20 := by exact_mod_cast hlen
  calc ((av.length : ℕ) : ℚ) * 2 ^ 202 ≤ 2 ^ 20 * 2 ^ 202 :=
        mul_le_mul_of_nonneg_right h1 (by norm_num)
    _ = 2 ^ 222 := by norm_num

theorem adj_factor_fl_range (ml t : ℚ) (hml : inRange ml) (ht0 : 0 ≤ t)
    (ht : t ≤ 2 ^ 222) :
    adj_factor_fl_checked ml t = some (adj_factor_fl ml t) ∧
      1 / 2 ^ 323 ≤ adj_factor_fl ml t ∧ adj_factor_fl ml t ≤ 1 := by
  have hb := adj_factor_fl_bounds ml t (inRange_pos hml) ht0
  unfold adj_factor_fl_checked adj_factor_fl
  by_cases h : t > ml
  · have htpos : 0 < t := lt_trans (inRange_pos hml) h
    have hq1 : 1 / 2 ^ 322 ≤ ml / t := by
      rw [le_div_iff₀ htpos]
      calc 1 / 2 ^ 322 * t ≤ 1 / 2 ^ 322 * 2 ^ 222 :=
            mul_le_mul_of_nonneg_left ht (by norm_num)
        _ = 1 / 2 ^ 100 := by norm_num
        _ ≤ ml := hml.1
    have hq2 : ml / t ≤ 1 := by
      rw [div_le_iff₀ htpos]
      linarith
    have hbt := fl_between (by norm_num) hq1 hq2
    rw [if_pos h, if_pos h]
    refine ⟨fl_checked_of_pos (le_trans (by norm_num) hq1)
      (lt_of_le_of_lt hq2 (by norm_num)), le_trans (by norm_num) hbt.1, ?_⟩
    have h1 := hb.2.1
    unfold adj_factor_fl at h1
    rw [if_pos h] at h1
    exact h1
  · rw [if_neg h, if_neg h]
    exact ⟨rfl, by norm_num, le_refl _⟩

theorem constrained_product_range (s f : ℚ)
    (hs : s = 0 ∨ (1 / 2 ^ 201 ≤ s ∧ s ≤ 2 ^ 201)) (hf1 : 1 / 2 ^ 323 ≤ f) (hf2 : f ≤ 1) :
    fl_checked (s * f) = some (fl (s * f)) ∧
      (fl (s * f) = 0 ∨ (1 / 2 ^ 525 ≤ fl (s * f) ∧ fl (s * f) ≤ 2 ^ 202)) := by
  rcases hs with rfl | ⟨hs1, hs2⟩
  · rw [zero_mul]
    exact ⟨fl_checked_zero, Or.inl fl_zero⟩
  · have hs0 : 0 < s := lt_of_lt_of_le (by norm_num) hs1
    have hf0 : 0 < f := lt_of_lt_of_le (by norm_num) hf1
    have hlo : 1 / 2 ^ 524 ≤ s * f := by
      calc (1 : ℚ) / 2 ^ 524 = 1 / 2 ^ 201 * (1 / 2 ^ 323) := by norm_num
        _ ≤ s * f := mul_le_mul hs1 hf1 (by norm_num) hs0.le
    have hhi : s * f ≤ 2 ^ 201 := by
      calc s * f ≤ 2 ^ 201 * 1 := mul_le_mul hs2 hf2 hf0.le (by norm_num)
        _ = 2 ^ 201 := by norm_num
    have hb := fl_between (by norm_num) hlo hhi
    refine ⟨fl_checked_of_pos (le_trans (by norm_num) hlo)
      (lt_of_le_of_lt hhi (by norm_num)), Or.inr ⟨le_trans (by norm_num) hb.1,
        le_trans hb.2 (by norm_num)⟩⟩

theorem constrained_sizes_fl_checked_eq (vt ml : ℚ) (av : List ℚ) (hvt : inRange vt)
    (hml : inRange ml) (hav : ∀ v ∈ av, v = 0 ∨ inRange v) (hlen : av.length ≤ 2 ^ 20) :
    constrained_sizes_fl_checked vt ml av = some (constrained_sizes_fl vt ml av) ∧
      ∀ c ∈ constrained_sizes_fl vt ml av, c = 0 ∨ (1 / 2 ^ 525 ≤ c ∧ c ≤ 2 ^ 202) := by
  have h1 := theo_sizes_fl_range vt av hvt hav
  have h2 := total_size_fl_range vt av hvt hav hlen
  have h0 : 0 ≤ total_size_fl vt av :=
    total_size_fl_nonneg vt av (inRange_pos hvt).le
      (fun v hv => nonneg_of_zero_or_inRange (hav v hv))
  have h3 := adj_factor_fl_range ml (total_size_fl vt av) hml h0 h2.2
  constructor
  · unfold constrained_sizes_fl_checked
    rw [h1.1, Option.some_bind, h2.1, Option.some_bind, h3.1, Option.some_bind]
    exact mapM_eq_some_map _ _ _
      (fun s hs => (constrained_product_range s _ (h1.2 s hs).2 h3.2.1 h3.2.2).1)
  · intro c hc
    unfold constrained_sizes_fl at hc
    rw [List.mem_map] at hc
    obtain ⟨s, hs, rfl⟩ := hc
    exact (constrained_product_range s _ (h1.2 s hs).2 h3.2.1 h3.2.2).2

theorem target_position_fl_range (te c p : ℚ) (hte : te = 0 ∨ inRange te)
    (hc : c = 0 ∨ (1 / 2 ^ 525 ≤ c ∧ c ≤ 2 ^ 202)) (hp : inRange p) :
    target_position_fl_checked te c p = some (target_position_fl te c p) := by
  have hp0 := inRange_pos hp
  unfold target_position_fl_checked target_position_fl
  by_cases h0 : te * c = 0
  · rw [h0, fl_checked_zero, Option.some_bind, fl_zero, zero_div, fl_checked_zero]
    rfl
  · have hte1 : inRange te := by
      rcases hte with h | h
      · exact absurd (by rw [h, zero_mul]) h0
      · exact h
    have hc1 : 1 / 2 ^ 525 ≤ c ∧ c ≤ 2 ^ 202 := by
      rcases hc with h | h
      · exact absurd (by rw [h, mul_zero]) h0
      · exact h
    have hte0 := inRange_pos hte1
    have hc0 : 0 < c := lt_of_lt_of_le (by norm_num) hc1.1
    have hlo : 1 / 2 ^ 625 ≤ te * c := by
      calc (1 : ℚ) / 2 ^ 625 = 1 / 2 ^ 100 * (1 / 2 ^ 525) := by norm_num
        _ ≤ te * c := mul_le_mul hte1.1 hc1.1 (by norm_num) hte0.le
    have hhi : te * c ≤ 2 ^ 302 := by
      calc te * c ≤ 2 ^ 100 * 2 ^ 202 := mul_le_mul hte1.2 hc1.2 hc0.le (by norm_num)
        _ = 2 ^ 302 := by norm_num
    have hb := fl_between (by norm_num) hlo hhi
    have hqlo : 1 / 2 ^ 726 ≤ fl (te * c) / p := by
      rw [le_div_iff₀ hp0]
      calc 1 / 2 ^ 726 * p ≤ 1 / 2 ^ 726 * 2 ^ 100 :=
            mul_le_mul_of_nonneg_left hp.2 (by norm_num)
        _ = 1 / 2 ^ 625 / 2 := by norm_num
        _ ≤ fl (te * c) := hb.1
    have hqhi : fl (te * c) / p ≤ 2 ^ 403 := by
      rw [div_le_iff₀ hp0]
      calc fl (te * c) ≤ 2 ^ 302 * 2 := hb.2
        _ = 2 ^ 403 * (1 / 2 ^ 100) := by norm_num
        _ ≤ 2 ^ 403 * p := mul_le_mul_of_nonneg_left hp.1 (by norm_num)
    rw [fl_checked_of_pos (le_trans (by norm_num) hlo) (lt_of_le_of_lt hhi (by norm_num)),
      Option.some_bind,
      fl_checked_of_pos (le_trans (by norm_num) hqlo) (lt_of_le_of_lt hqhi (by norm_num))]
    rfl

theorem zip_mapM_eq_some_zipWith {α β γ : Type} (f : α → β → Option γ) (g : α → β → γ) :
    ∀ (l : List α) (m : List β),
      (∀ x ∈ l, ∀ y ∈ m, f x y = some (g x y)) →
      (l.zip m).mapM (fun xy => f xy.1 xy.2) = some (List.zipWith g l m) := by
  intro l
  induction l with
  | nil =>
    intro m _
    rfl
  | cons a as ih =>
    intro m h
    cases m with
    | nil => rfl
    | cons b bs =>
      rw [List.zip_cons_cons, List.mapM_cons, List.zipWith_cons_cons]
      simp only
      rw [h a (List.mem_cons_self _ _) b (List.mem_cons_self _ _),
        ih bs (fun x hx y hy => h x (List.mem_cons_of_mem _ hx) y (List.mem_cons_of_mem _ hy))]
      rfl

theorem target_positions_fl_checked_eq (cfg : Config) (te : ℚ) (assets : List AssetBar)
    (hte : te = 0 ∨ inRange te) (hprice : ∀ a ∈ assets, inRange a.price)
    (hvol : ∀ a ∈ assets, a.ann_vol = 0 ∨ inRange a.ann_vol)
    (hvt : inRange cfg.VOL_TARGET) (hml : inRange cfg.MAX_LEVERAGE)
    (hlen : assets.length ≤ 2 ^ 20) :
    target_positions_fl_checked cfg te assets = some (target_positions_fl cfg te assets) := by
  have hav : ∀ v ∈ assets.map AssetBar.ann_vol, v = 0 ∨ inRange v := by
    intro v hv
    rw [List.mem_map] at hv
    obtain ⟨b, hb, rfl⟩ := hv
    exact hvol b hb
  have hc := constrained_sizes_fl_checked_eq cfg.VOL_TARGET cfg.MAX_LEVERAGE
    (assets.map AssetBar.ann_vol) hvt hml hav (by rw [List.length_map]; exact hlen)
  unfold target_positions_fl_checked target_positions_fl
  rw [hc.1, Option.some_bind]
  exact zip_mapM_eq_some_zipWith
    (fun (c : ℚ) (a : AssetBar) => target_position_fl_checked te c a.price)
    (fun (c : ℚ) (a : AssetBar) => target_position_fl te c a.price) _ _
    (fun c hcm a ha => target_position_fl_range te c a.price hte (hc.2 c hcm) (hprice a ha))

/-! ### Doubles of the sample inputs -/

@[simp]
theorem fl_val_01 : fl (1 / 10) = 3602879701896397 / 36028797018963968 := by
  rw [fl_of_bounds _ (-56) (by norm_num) (by norm_num)]
  norm_num [roundHalfEven]

@[simp]
theorem fl_val_02 : fl (53 / 100) = 2386907802506363 / 4503599627370496 := by
  rw [fl_of_bounds _ (-53) (by norm_num) (by norm_num)]
  norm_num [roundHalfEven]

@[simp]
theorem fl_val_03 : fl (11 / 100) = 7926335344172073 / 72057594037927936 := by
  rw [fl_of_bounds _ (-56) (by norm_num) (by norm_num)]
  norm_num [roundHalfEven]

@[simp]
theorem fl_val_04 : fl (9 / 25) = 3242591731706757 / 9007199254740992 := by
  rw [fl_of_bounds _ (-54) (by norm_num) (by norm_num)]
  norm_num [roundHalfEven]

@[simp]
theorem fl_val_05 :
    fl (3602879701896397 / 19095262420050904) =
      3398943114996601 / 18014398509481984 := by
  rw [fl_of_bounds _ (-55) (by norm_num) (by norm_num)]
  norm_num [roundHalfEven]

@[simp]
theorem fl_val_06 :
    fl (7205759403792794 / 7926335344172073) =
      1023545369856931 / 1125899906842624 := by
  rw [fl_of_bounds _ (-53) (by norm_num) (by norm_num)]
  norm_num [roundHalfEven]

@[simp]
theorem fl_val_07 :
    fl (3602879701896397 / 12970366926827028) =
      2501999792983609 / 9007199254740992 := by
  rw [fl_of_bounds _ (-54) (by norm_num) (by norm_num)]
  norm_num [roundHalfEven]

@[simp]
theorem fl_val_08 :
    fl (3398943114996601 / 18014398509481984) =
      3398943114996601 / 18014398509481984 := by
  rw [fl_of_bounds _ (-55) (by norm_num) (by norm_num)]
  norm_num [roundHalfEven]

@[simp]
theorem fl_val_09 :
    fl (19775669032707497 / 18014398509481984) =
      2471958629088437 / 2251799813685248 := by
  rw [fl_of_bounds _ (-52) (by norm_num) (by norm_num)]
  norm_num [roundHalfEven]

@[simp]
theorem fl_val_10 :
    fl (12389834309337357 / 9007199254740992) =
      3097458577334339 / 2251799813685248 := by
  rw [fl_of_bounds _ (-52) (by norm_num) (by norm_num)]
  norm_num [roundHalfEven]

@[simp]
theorem fl_val_11 :
    fl (2251799813685248 / 3097458577334339) =
      6548080982282783 / 9007199254740992 := by
  rw [fl_of_bounds _ (-53) (by norm_num) (by norm_num)]
  norm_num [roundHalfEven]

@[simp]
theorem fl_val_12 :
    fl (22256554771170245333630265820583 / 162259276829213363391578010288128) =
      2470973955578409 / 18014398509481984 := by
  rw [fl_of_bounds _ (-55) (by norm_num) (by norm_num)]
  norm_num [roundHalfEven]

@[simp]
theorem fl_val_13 :
    fl (6702257970863767172310494518973 / 10141204801825835211973625643008) =
      5952800892984349 / 9007199254740992 := by
  rw [fl_of_bounds _ (-53) (by norm_num) (by norm_num)]
  norm_num [roundHalfEven]

@[simp]
theorem fl_val_14 :
    fl (16383297262111430138083321903847 / 81129638414606681695789005144064) =
      7275645535869759 / 36028797018963968 := by
  rw [fl_of_bounds _ (-55) (by norm_num) (by norm_num)]
  norm_num [roundHalfEven]

@[simp]
theorem fl_val_15 : fl (3 / 20) = 5404319552844595 / 36028797018963968 := by
  rw [fl_of_bounds _ (-55) (by norm_num) (by norm_num)]
  norm_num [roundHalfEven]

@[simp]
theorem fl_val_16 : fl (3 / 25) = 1080863910568919 / 9007199254740992 := by
  rw [fl_of_bounds _ (-56) (by norm_num) (by norm_num)]
  norm_num [roundHalfEven]

@[simp]
theorem fl_val_17 : fl (9 / 50) = 3242591731706757 / 18014398509481984 := by
  rw [fl_of_bounds _ (-55) (by norm_num) (by norm_num)]
  norm_num [roundHalfEven]

@[simp]
theorem fl_val_18 :
    fl (3602879701896397 / 5404319552844595) =
      3002399751580331 / 4503599627370496 := by
  rw [fl_of_bounds _ (-53) (by norm_num) (by norm_num)]
  norm_num [roundHalfEven]

@[simp]
theorem fl_val_19 :
    fl (3602879701896397 / 4323455642275676) =
      7505999378950827 / 9007199254740992 := by
  rw [fl_of_bounds _ (-53) (by norm_num) (by norm_num)]
  norm_num [roundHalfEven]

@[simp]
theorem fl_val_20 :
    fl (3602879701896397 / 6485183463413514) =
      2501999792983609 / 4503599627370496 := by
  rw [fl_of_bounds _ (-53) (by norm_num) (by norm_num)]
  norm_num [roundHalfEven]

@[simp]
theorem fl_val_21 :
    fl (3002399751580331 / 4503599627370496) =
      3002399751580331 / 4503599627370496 := by
  rw [fl_of_bounds _ (-53) (by norm_num) (by norm_num)]
  norm_num [roundHalfEven]

@[simp]
theorem fl_val_22 : fl (13510798882111489 / 9007199254740992) = 3 / 2 := by
  rw [fl_of_bounds _ (-52) (by norm_num) (by norm_num)]
  norm_num [roundHalfEven]

@[simp]
theorem fl_val_23 :
    fl (9257399234039353 / 4503599627370496) =
      1157174904254919 / 562949953421312 := by
  rw [fl_of_bounds _ (-51) (by norm_num) (by norm_num)]
  norm_num [roundHalfEven]

@[simp]
theorem fl_val_24 :
    fl (562949953421312 / 1157174904254919) =
      4381880718522645 / 9007199254740992 := by
  rw [fl_of_bounds _ (-54) (by norm_num) (by norm_num)]
  norm_num [roundHalfEven]

@[simp]
theorem fl_val_25 :
    fl (13156157580747031655122360095495 / 40564819207303340847894502572032) =
      5842507624696861 / 18014398509481984 := by
  rw [fl_of_bounds _ (-54) (by norm_num) (by norm_num)]
  norm_num [roundHalfEven]

@[simp]
theorem fl_val_26 :
    fl (32890393951867576946865540977415 / 81129638414606681695789005144064) =
      7303134530871075 / 18014398509481984 := by
  rw [fl_of_bounds _ (-54) (by norm_num) (by norm_num)]
  norm_num [roundHalfEven]

@[simp]
theorem fl_val_27 :
    fl (10963464650622525648955180325805 / 40564819207303340847894502572032) =
      2434378176957025 / 9007199254740992 := by
  rw [fl_of_bounds _ (-54) (by norm_num) (by norm_num)]
  norm_num [roundHalfEven]

@[simp]
theorem fl_val_28 : fl (19 / 100) = 3422735716801577 / 18014398509481984 := by
  rw [fl_of_bounds _ (-55) (by norm_num) (by norm_num)]
  norm_num [roundHalfEven]

@[simp]
theorem fl_val_29 :
    fl (6845471433603155 / 36028797018963968) =
      6845471433603155 / 36028797018963968 := by
  rw [fl_of_bounds _ (-55) (by norm_num) (by norm_num)]
  norm_num [roundHalfEven]

@[simp]
theorem fl_val_30 :
    fl (3602879701896397 / 6845471433603154) =
      4740631186705785 / 9007199254740992 := by
  rw [fl_of_bounds _ (-53) (by norm_num) (by norm_num)]
  norm_num [roundHalfEven]

@[simp]
theorem fl_val_31 :
    fl (3602879701896397 / 6845471433603155) =
      4740631186705785 / 9007199254740992 := by
  rw [fl_of_bounds _ (-53) (by norm_num) (by norm_num)]
  norm_num [roundHalfEven]

@[simp]
theorem fl_val_32 : fl (4117 / 25) = 2897081197794427 / 17592186044416 := by
  rw [fl_of_bounds _ (-45) (by norm_num) (by norm_num)]
  norm_num [roundHalfEven]

@[simp]
theorem fl_val_33 : fl (8234) = 8234 := by
  rw [fl_of_bounds _ (-39) (by norm_num) (by norm_num)]
  norm_num [roundHalfEven]

@[simp]
theorem fl_val_34 : fl (144854059889721344 / 2897081197794427) = 50 := by
  rw [fl_of_bounds _ (-47) (by norm_num) (by norm_num)]
  norm_num [roundHalfEven]

@[simp]
theorem fl_val_35 : fl (2 / 5) = 3602879701896397 / 9007199254740992 := by
  rw [fl_of_bounds _ (-54) (by norm_num) (by norm_num)]
  norm_num [roundHalfEven]

@[simp]
theorem fl_val_36 : fl (12159718993900339875 / 1125899906842624) = 10800 := by
  rw [fl_of_bounds _ (-39) (by norm_num) (by norm_num)]
  norm_num [roundHalfEven]

@[simp]
theorem fl_val_37 : fl (60) = 60 := by
  rw [fl_of_bounds _ (-47) (by norm_num) (by norm_num)]
  norm_num [roundHalfEven]

@[simp]
theorem fl_val_38 : fl (100000000000000000) = 100000000000000000 := by
  rw [fl_of_bounds _ (4) (by norm_num) (by norm_num)]
  norm_num [roundHalfEven]

@[simp]
theorem fl_val_39 : fl (1885203518355109405517578125 / 137438953472) = 13716660893661242 := by
  rw [fl_of_bounds _ (1) (by norm_num) (by norm_num)]
  norm_num [roundHalfEven]

@[simp]
theorem fl_val_40 : fl (13716660893661242) = 13716660893661242 := by
  rw [fl_of_bounds _ (1) (by norm_num) (by norm_num)]
  norm_num [roundHalfEven]

@[simp]
theorem fl_val_41 : fl (4541626657855490875244140625 / 68719476736) = 66089366124004168 := by
  rw [fl_of_bounds _ (3) (by norm_num) (by norm_num)]
  norm_num [roundHalfEven]

@[simp]
theorem fl_val_42 : fl (66089366124004168) = 66089366124004168 := by
  rw [fl_of_bounds _ (3) (by norm_num) (by norm_num)]
  norm_num [roundHalfEven]

@[simp]
theorem fl_val_43 : fl (5550877026267821502685546875 / 274877906944) = 20193972982334604 := by
  rw [fl_of_bounds _ (2) (by norm_num) (by norm_num)]
  norm_num [roundHalfEven]

@[simp]
theorem fl_val_44 : fl (20193972982334604) = 20193972982334604 := by
  rw [fl_of_bounds _ (2) (by norm_num) (by norm_num)]
  norm_num [roundHalfEven]

@[simp]
theorem fl_val_45 : fl (4594 / 25) = 808185026880471 / 4398046511104 := by
  rw [fl_of_bounds _ (-45) (by norm_num) (by norm_num)]
  norm_num [roundHalfEven]

@[simp]
theorem fl_val_46 :
    fl (18257836327177690625 / 1125899906842624) =
      2228739786032433 / 137438953472 := by
  rw [fl_of_bounds _ (-39) (by norm_num) (by norm_num)]
  norm_num [roundHalfEven]

@[simp]
theorem fl_val_47 :
    fl (23773224384345952 / 269395008960157) =
      6209810461735991 / 70368744177664 := by
  rw [fl_of_bounds _ (-46) (by norm_num) (by norm_num)]
  norm_num [roundHalfEven]

@[simp]
theorem fl_val_48 : fl (17111 / 100) = 1505099477030011 / 8796093022208 := by
  rw [fl_of_bounds _ (-45) (by norm_num) (by norm_num)]
  norm_num [roundHalfEven]

@[simp]
theorem fl_val_49 :
    fl (22822295408972109375 / 1125899906842624) =
      5571849465081081 / 274877906944 := by
  rw [fl_of_bounds _ (-38) (by norm_num) (by norm_num)]
  norm_num [roundHalfEven]

@[simp]
theorem fl_val_50 :
    fl (178299182882594592 / 1505099477030011) =
      8336119823860421 / 70368744177664 := by
  rw [fl_of_bounds _ (-46) (by norm_num) (by norm_num)]
  norm_num [roundHalfEven]

@[simp]
theorem fl_val_51 :
    fl (7607431802990703125 / 562949953421312) =
      7429132620108109 / 549755813888 := by
  rw [fl_of_bounds _ (-39) (by norm_num) (by norm_num)]
  norm_num [roundHalfEven]

@[simp]
theorem fl_val_52 :
    fl (237732243843459488 / 2897081197794427) =
      2887202378472911 / 35184372088832 := by
  rw [fl_of_bounds _ (-46) (by norm_num) (by norm_num)]
  norm_num [roundHalfEven]

theorem roundingVols_sizes :
    theo_sizes_fl (fl (1 / 10)) roundingVols =
        [3398943114996601 / 18014398509481984, 1023545369856931 / 1125899906842624,
          2501999792983609 / 9007199254740992] ∧
      total_size_fl (fl (1 / 10)) roundingVols = 3097458577334339 / 2251799813685248 ∧
      adj_factor_fl 1 (total_size_fl (fl (1 / 10)) roundingVols) =
        6548080982282783 / 9007199254740992 ∧
      constrained_sizes_fl (fl (1 / 10)) 1 roundingVols =
        [2470973955578409 / 18014398509481984, 5952800892984349 / 9007199254740992,
          7275645535869759 / 36028797018963968] := by
  refine ⟨?_, ?_, ?_, ?_⟩
  · norm_num [roundingVols, theo_sizes_fl, theo_size_fl]
  · norm_num [roundingVols, total_size_fl, Sum_fl, theo_sizes_fl, theo_size_fl]
  · norm_num [roundingVols, adj_factor_fl, total_size_fl, Sum_fl, theo_sizes_fl,
      theo_size_fl]
  · norm_num [roundingVols, constrained_sizes_fl, adj_factor_fl, total_size_fl, Sum_fl,
      theo_sizes_fl, theo_size_fl]

theorem sampleVols_fl_sizes :
    theo_sizes_fl (fl (1 / 10)) sampleVols_fl =
        [3002399751580331 / 4503599627370496, 7505999378950827 / 9007199254740992,
          2501999792983609 / 4503599627370496] ∧
      total_size_fl (fl (1 / 10)) sampleVols_fl = 1157174904254919 / 562949953421312 ∧
      adj_factor_fl 1 (total_size_fl (fl (1 / 10)) sampleVols_fl) =
        4381880718522645 / 9007199254740992 ∧
      constrained_sizes_fl (fl (1 / 10)) 1 sampleVols_fl =
        [5842507624696861 / 18014398509481984, 7303134530871075 / 18014398509481984,
          2434378176957025 / 9007199254740992] := by
  refine ⟨?_, ?_, ?_, ?_⟩
  · norm_num [sampleVols_fl, theo_sizes_fl, theo_size_fl]
  · norm_num [sampleVols_fl, total_size_fl, Sum_fl, theo_sizes_fl, theo_size_fl]
  · norm_num [sampleVols_fl, adj_factor_fl, total_size_fl, Sum_fl, theo_sizes_fl,
      theo_size_fl]
  · norm_num [sampleVols_fl, constrained_sizes_fl, adj_factor_fl, total_size_fl, Sum_fl,
      theo_sizes_fl, theo_size_fl]

theorem roundingVols_inRange : ∀ v ∈ roundingVols, v = 0 ∨ inRange v := by
  intro v hv
  simp only [roundingVols, List.mem_cons, List.mem_singleton, List.not_mem_nil,
    or_false] at hv
  right
  rcases hv with rfl | rfl | rfl <;> norm_num [inRange]

theorem sampleVols_fl_inRange : ∀ v ∈ sampleVols_fl, v = 0 ∨ inRange v := by
  intro v hv
  simp only [sampleVols_fl, List.mem_cons, List.mem_singleton, List.not_mem_nil,
    or_false] at hv
  right
  rcases hv with rfl | rfl | rfl <;> norm_num [inRange]

theorem inRange_vol_target : inRange (fl (1 / 10)) := by
  norm_num [inRange]

theorem inRange_one : inRange 1 := by
  norm_num [inRange]

theorem unitPriceBars_targets :
    target_positions_fl sourceConfig_fl (10 ^ 17) unitPriceBars =
      [13716660893661242, 66089366124004168, 20193972982334604] := by
  norm_num [unitPriceBars, target_positions_fl, target_position_fl, sourceConfig_fl,
    sourceConfig, constrained_sizes_fl, adj_factor_fl, total_size_fl, Sum_fl,
    theo_sizes_fl, theo_size_fl, fl_one]

theorem roundedPriceBar_targets :
    constrained_sizes_fl sourceConfig_fl.VOL_TARGET sourceConfig_fl.MAX_LEVERAGE
        [roundedPriceBar.ann_vol] = [1] ∧
      target_positions_fl sourceConfig_fl 8234 [roundedPriceBar] = [50] := by
  constructor
  · norm_num [roundedPriceBar, sourceConfig_fl, sourceConfig, constrained_sizes_fl,
      adj_factor_fl, total_size_fl, Sum_fl, theo_sizes_fl, theo_size_fl, fl_one]
  · norm_num [roundedPriceBar, target_positions_fl, target_position_fl, sourceConfig_fl,
      sourceConfig, constrained_sizes_fl, adj_factor_fl, total_size_fl, Sum_fl,
      theo_sizes_fl, theo_size_fl, fl_one]

/-- On the sample of `sampleBars` the target positions computed in double
arithmetic are those computed in exact arithmetic: 88, 118 and 82. -/
theorem sampleBars_fl_targets :
    target_positions_fl sourceConfig_fl 50000 sampleBars_fl = [88, 118, 82] ∧
      target_positions sourceConfig 50000 sampleBars = [88, 118, 82] := by
  constructor
  · norm_num [sampleBars_fl, target_positions_fl, target_position_fl, sourceConfig_fl,
      sourceConfig, constrained_sizes_fl, adj_factor_fl, total_size_fl, Sum_fl,
      theo_sizes_fl, theo_size_fl, fl_one]
  · norm_num [target_positions, constrained_sizes, theo_sizes, theo_size, total_size,
      adj_factor, target_position, sampleBars, sourceConfig]

/-! ## Claims -/

/-- Claim C1, as amended: in double arithmetic, for at most 2^20 volatilities,
each 0 or between 2^-100 and 2^100, and a volatility target and a maximal
leverage between 2^-100 and 2^100, the constrained sizes add up to at most
`MAX_LEVERAGE * (1 + 2^-52)^(n + 2)`, where `n` is the number of assets; for
three assets that is less than `MAX_LEVERAGE * (1 + 2^-49)`.  On these inputs
no rounded result of lines 207-237 leaves the normal range of a double. -/
theorem leverage_cap_fl (VOL_TARGET MAX_LEVERAGE : ℚ) (ann_vol : List ℚ)
    (hvol : ∀ v ∈ ann_vol, v = 0 ∨ inRange v) (hvt : inRange VOL_TARGET)
    (hml : inRange MAX_LEVERAGE) (hlen : ann_vol.length ≤ 2 ^ 20) :
    (constrained_sizes_fl VOL_TARGET MAX_LEVERAGE ann_vol).sum ≤
        MAX_LEVERAGE * (1 + 1 / 2 ^ 52) ^ (ann_vol.length + 2) ∧
      (ann_vol.length = 3 →
        (constrained_sizes_fl VOL_TARGET MAX_LEVERAGE ann_vol).sum ≤
          MAX_LEVERAGE * (1 + 1 / 2 ^ 49)) ∧
      constrained_sizes_fl_checked VOL_TARGET MAX_LEVERAGE ann_vol =
        some (constrained_sizes_fl VOL_TARGET MAX_LEVERAGE ann_vol) := by
  have h := constrained_sizes_fl_sum_le VOL_TARGET MAX_LEVERAGE ann_vol
    (inRange_pos hvt).le (inRange_pos hml)
    (fun v hv => nonneg_of_zero_or_inRange (hvol v hv))
  refine ⟨h, ?_,
    (constrained_sizes_fl_checked_eq VOL_TARGET MAX_LEVERAGE ann_vol hvt hml hvol hlen).1⟩
  intro h3
  rw [h3] at h
  have hnum : ((1 : ℚ) + 1 / 2 ^ 52) ^ (3 + 2) ≤ 1 + 1 / 2 ^ 49 := by norm_num
  exact le_trans h (mul_le_mul_of_nonneg_left hnum (inRange_pos hml).le)

theorem leverage_cap_fl_witness :
    (∀ v ∈ roundingVols, v = 0 ∨ inRange v) ∧ inRange (fl (1 / 10)) ∧ inRange 1 ∧
      roundingVols.length ≤ 2 ^ 20 ∧
      (constrained_sizes_fl (fl (1 / 10)) 1 roundingVols).sum ≤
        1 * (1 + 1 / 2 ^ 52) ^ (roundingVols.length + 2) :=
  ⟨roundingVols_inRange, inRange_vol_target, inRange_one, by simp [roundingVols],
    (leverage_cap_fl (fl (1 / 10)) 1 roundingVols roundingVols_inRange
      inRange_vol_target inRange_one (by simp [roundingVols])).1⟩

/-- Counterexample to claim C1 as stated: for the volatilities 0.53, 0.11 and
0.36, the volatility target 0.1 and the maximal leverage 1, all of them
doubles, the constrained sizes computed by lines 221-236 add up to
`1 + 5/2^55`, which is above the maximal leverage. -/
theorem leverage_cap_exceeded :
    (∀ v ∈ roundingVols, 0 ≤ v) ∧ 0 < fl (1 / 10) ∧
      constrained_sizes_fl (fl (1 / 10)) 1 roundingVols =
        [2470973955578409 / 18014398509481984, 5952800892984349 / 9007199254740992,
          7275645535869759 / 36028797018963968] ∧
      (constrained_sizes_fl (fl (1 / 10)) 1 roundingVols).sum = 1 + 5 / 2 ^ 55 ∧
      ¬ (constrained_sizes_fl (fl (1 / 10)) 1 roundingVols).sum ≤ 1 := by
  have hs := roundingVols_sizes.2.2.2
  refine ⟨fun v hv => nonneg_of_zero_or_inRange (roundingVols_inRange v hv),
    inRange_pos inRange_vol_target, hs, ?_, ?_⟩
  · rw [hs]
    norm_num
  · rw [hs]
    norm_num

/-- Claim C3: `rebalance` buys `|target - current|` units when the target is above
the current position, sells `|target - current|` units when it is below, and
does nothing when they are equal; whenever it places an order, the current
position plus the signed quantity of the order is the target. -/
theorem rebalance_direction (cfg : Config) (current target : ℤ) :
    (current < target →
        (rebalance cfg current target).order =
          some (Order.enterLong |target - current|)) ∧
      (target < current →
        (rebalance cfg current target).order =
          some (Order.exitLong |target - current|)) ∧
      (target = current →
        (rebalance cfg current target).order = none ∧
          (rebalance cfg current target).commission = none) ∧
      (∀ o, (rebalance cfg current target).order = some o →
        current + o.signedQuantity = target) := by
  refine ⟨?_, ?_, ?_, ?_⟩
  · intro h
    simp [rebalance, h, abs_sub_comm]
  · intro h
    simp [rebalance, h, not_lt.mpr h.le, abs_sub_comm]
  · intro h
    subst h
    simp [rebalance, commission]
  · intro o ho
    rcases lt_trichotomy current target with h | h | h
    · have h1 : |current - target| = target - current := by
        rw [abs_sub_comm]; exact abs_of_pos (by omega)
      simp [rebalance, h, h1] at ho
      subst ho
      simp [Order.signedQuantity]
    · subst h
      simp [rebalance] at ho
    · have h1 : |current - target| = current - target := abs_of_pos (by omega)
      simp [rebalance, h, not_lt.mpr h.le, h1] at ho
      subst ho
      simp [Order.signedQuantity]

/-- Claim C4, as amended: in double arithmetic the scaling is uniform up to the
rounding of the products of line 236: for any two assets `i` and `j`,
`constrained_size[i] * theo_size[j]` and `constrained_size[j] * theo_size[i]`
differ by at most `2^-52 * theo_size[i] * theo_size[j] * adj_factor`, whether
or not the leverage cap is hit (inputs as in claim C1, on which no rounded
result of lines 207-237 leaves the normal range of a double). -/
theorem scaling_uniform_fl (VOL_TARGET MAX_LEVERAGE : ℚ) (ann_vol : List ℚ)
    (hvol : ∀ v ∈ ann_vol, v = 0 ∨ inRange v) (hvt : inRange VOL_TARGET)
    (hml : inRange MAX_LEVERAGE) (hlen : ann_vol.length ≤ 2 ^ 20)
    (i j : ℕ) (ci cj ti tj : ℚ)
    (hci : (constrained_sizes_fl VOL_TARGET MAX_LEVERAGE ann_vol)[i]? = some ci)
    (hcj : (constrained_sizes_fl VOL_TARGET MAX_LEVERAGE ann_vol)[j]? = some cj)
    (hti : (theo_sizes_fl VOL_TARGET ann_vol)[i]? = some ti)
    (htj : (theo_sizes_fl VOL_TARGET ann_vol)[j]? = some tj) :
    |ci * tj - cj * ti| ≤
        1 / 2 ^ 52 *
          (ti * tj * adj_factor_fl MAX_LEVERAGE (total_size_fl VOL_TARGET ann_vol)) ∧
      constrained_sizes_fl_checked VOL_TARGET MAX_LEVERAGE ann_vol =
        some (constrained_sizes_fl VOL_TARGET MAX_LEVERAGE ann_vol) := by
  refine ⟨?_,
    (constrained_sizes_fl_checked_eq VOL_TARGET MAX_LEVERAGE ann_vol hvt hml hvol hlen).1⟩
  have hav : ∀ v ∈ ann_vol, 0 ≤ v := fun v hv => nonneg_of_zero_or_inRange (hvol v hv)
  have hf := (adj_factor_fl_bounds MAX_LEVERAGE (total_size_fl VOL_TARGET ann_vol)
    (inRange_pos hml) (total_size_fl_nonneg _ _ (inRange_pos hvt).le hav)).1
  rw [constrained_sizes_fl_getElem?] at hci hcj
  rw [theo_sizes_fl_getElem?] at hti htj
  cases hi : ann_vol[i]? with
  | none => simp [hi] at hti
  | some vi =>
    cases hj : ann_vol[j]? with
    | none => simp [hj] at htj
    | some vj =>
      simp only [hi, hj, Option.map_some', Option.some.injEq] at hci hcj hti htj
      subst hci hcj hti htj
      exact cross_products_fl _ _ _
        (theo_size_fl_nonneg _ _ (inRange_pos hvt).le (hav vi (List.getElem?_mem hi)))
        (theo_size_fl_nonneg _ _ (inRange_pos hvt).le (hav vj (List.getElem?_mem hj)))
        hf.le

theorem scaling_uniform_fl_witness :
    (∀ v ∈ sampleVols_fl, v = 0 ∨ inRange v) ∧ inRange (fl (1 / 10)) ∧ inRange 1 ∧
      sampleVols_fl.length ≤ 2 ^ 20 ∧
      (constrained_sizes_fl (fl (1 / 10)) 1 sampleVols_fl)[0]? =
        some (5842507624696861 / 18014398509481984) ∧
      (constrained_sizes_fl (fl (1 / 10)) 1 sampleVols_fl)[2]? =
        some (2434378176957025 / 9007199254740992) ∧
      (theo_sizes_fl (fl (1 / 10)) sampleVols_fl)[0]? =
        some (3002399751580331 / 4503599627370496) ∧
      (theo_sizes_fl (fl (1 / 10)) sampleVols_fl)[2]? =
        some (2501999792983609 / 4503599627370496) ∧
      |(5842507624696861 / 18014398509481984 : ℚ) * (2501999792983609 / 4503599627370496) -
          2434378176957025 / 9007199254740992 * (3002399751580331 / 4503599627370496)| ≤
        1 / 2 ^ 52 *
          (3002399751580331 / 4503599627370496 * (2501999792983609 / 4503599627370496) *
            adj_factor_fl 1 (total_size_fl (fl (1 / 10)) sampleVols_fl)) :=
  have hc0 : (constrained_sizes_fl (fl (1 / 10)) 1 sampleVols_fl)[0]? =
      some (5842507624696861 / 18014398509481984) := by
    rw [sampleVols_fl_sizes.2.2.2]
    rfl
  have hc2 : (constrained_sizes_fl (fl (1 / 10)) 1 sampleVols_fl)[2]? =
      some (2434378176957025 / 9007199254740992) := by
    rw [sampleVols_fl_sizes.2.2.2]
    rfl
  have ht0 : (theo_sizes_fl (fl (1 / 10)) sampleVols_fl)[0]? =
      some (3002399751580331 / 4503599627370496) := by
    rw [sampleVols_fl_sizes.1]
    rfl
  have ht2 : (theo_sizes_fl (fl (1 / 10)) sampleVols_fl)[2]? =
      some (2501999792983609 / 4503599627370496) := by
    rw [sampleVols_fl_sizes.1]
    rfl
  ⟨sampleVols_fl_inRange, inRange_vol_target, inRange_one, by simp [sampleVols_fl],
    hc0, hc2, ht0, ht2,
    (scaling_uniform_fl (fl (1 / 10)) 1 sampleVols_fl sampleVols_fl_inRange
      inRange_vol_target inRange_one (by simp [sampleVols_fl]) 0 2 _ _ _ _ hc0 hc2 ht0
      ht2).1⟩

/-- Counterexample to claim C4 as stated: for the volatilities 0.15, 0.12 and
0.18, the volatility target 0.1 and the maximal leverage 1, all of them
doubles, the sizes computed by lines 221-236 have
`constrained_size[0] * theo_size[2] ≠ constrained_size[2] * theo_size[0]`. -/
theorem cross_products_differ :
    (∀ v ∈ sampleVols_fl, 0 ≤ v) ∧ 0 < fl (1 / 10) ∧
      ∃ ci cj ti tj : ℚ,
        (constrained_sizes_fl (fl (1 / 10)) 1 sampleVols_fl)[0]? = some ci ∧
          (constrained_sizes_fl (fl (1 / 10)) 1 sampleVols_fl)[2]? = some cj ∧
          (theo_sizes_fl (fl (1 / 10)) sampleVols_fl)[0]? = some ti ∧
          (theo_sizes_fl (fl (1 / 10)) sampleVols_fl)[2]? = some tj ∧
          ci * tj ≠ cj * ti := by
  refine ⟨fun v hv => nonneg_of_zero_or_inRange (sampleVols_fl_inRange v hv),
    inRange_pos inRange_vol_target,
    5842507624696861 / 18014398509481984, 2434378176957025 / 9007199254740992,
    3002399751580331 / 4503599627370496, 2501999792983609 / 4503599627370496,
    ?_, ?_, ?_, ?_, ?_⟩
  · rw [sampleVols_fl_sizes.2.2.2]
    rfl
  · rw [sampleVols_fl_sizes.2.2.2]
    rfl
  · rw [sampleVols_fl_sizes.1]
    rfl
  · rw [sampleVols_fl_sizes.1]
    rfl
  · norm_num

/-- Claim C6: with `TRACKING_ERROR_THRESHOLD` not defined, `rebalance` is called
for an asset exactly when the trading day of the month is 1 or there is no open
and no pending long trade, a condition that does not depend on the asset:
either every asset is rebalanced or none is. -/
theorem calendar_mode_rebalance_iff (cfg : Config) (total_exposure : ℚ)
    (tdm numOpenLong numPendingLong : ℕ) (assets : List AssetBar) (i : ℕ)
    (a : AssetBar) (target : ℤ)
    (hmode : cfg.TRACKING_ERROR_THRESHOLD = none)
    (ha : assets[i]? = some a)
    (ht : (target_positions cfg total_exposure assets)[i]? = some target) :
    ((run cfg total_exposure tdm numOpenLong numPendingLong assets)[i]? =
          some (some (rebalance cfg (current_position a.trades) target)) ↔
        (tdm = 1 ∨ (numOpenLong = 0 ∧ numPendingLong = 0))) ∧
      ((run cfg total_exposure tdm numOpenLong numPendingLong assets)[i]? = some none ↔
        ¬ (tdm = 1 ∨ (numOpenLong = 0 ∧ numPendingLong = 0))) ∧
      (run cfg total_exposure tdm numOpenLong numPendingLong assets).length =
        assets.length := by
  rw [run_calendar_getElem? cfg total_exposure tdm numOpenLong numPendingLong
    assets i a target hmode ha ht, ← calendar_trigger_iff]
  refine ⟨?_, ?_, run_length _ _ _ _ _ _⟩
  · by_cases h : calendar_trigger tdm numOpenLong numPendingLong = true <;> simp [h]
  · by_cases h : calendar_trigger tdm numOpenLong numPendingLong = true <;> simp [h]

theorem calendar_mode_rebalance_iff_witness :
    monthlyConfig.TRACKING_ERROR_THRESHOLD = none ∧
      sampleBars[1]? =
        some { ann_vol := 12 / 100, price := 17111 / 100, trades := [⟨true, 120⟩],
               numOpenLong := 1, numPendingLong := 0 } ∧
      (target_positions monthlyConfig 50000 sampleBars)[1]? = some 118 ∧
      (run monthlyConfig 50000 2 1 0 sampleBars)[1]? = some none ∧
      run monthlyConfig 50000 2 1 0 sampleBars = [none, none, none] :=
  have ht : (target_positions monthlyConfig 50000 sampleBars)[1]? = some 118 := by
    rw [sampleBars_monthly_targets]
    rfl
  ⟨rfl, rfl, ht,
    (calendar_mode_rebalance_iff monthlyConfig 50000 2 1 0 sampleBars 1 _ 118 rfl rfl
      ht).2.1.mpr (by decide),
    by norm_num [run, target_positions, constrained_sizes, theo_sizes, theo_size,
      total_size, adj_factor, target_position, sampleBars, sourceConfig, monthlyConfig,
      calendar_trigger]⟩

/-- Claim C7: for the closes 183.76, 171.11, 164.68, volatilities 0.15, 0.12,
0.18, volatility target 0.10, maximal leverage 1 and an exposure of 50000, the
theoretical sizes, their total, the adjustment factor and the constrained
sizes are within 0.0005 of 0.667, 0.833, 0.556, of 2.056, of 0.4865 and of
0.3244, 0.4054, 0.2705; the total is above the maximal leverage; and the
target positions are 88, 118 and 82. -/
theorem end_to_end_sample :
    theo_sizes (1 / 10) [15 / 100, 12 / 100, 18 / 100] = [2 / 3, 5 / 6, 5 / 9] ∧
      (|(2 / 3 : ℚ) - 667 / 1000| < 5 / 10000 ∧ |(5 / 6 : ℚ) - 833 / 1000| < 5 / 10000 ∧
        |(5 / 9 : ℚ) - 556 / 1000| < 5 / 10000) ∧
      total_size (1 / 10) [15 / 100, 12 / 100, 18 / 100] = 37 / 18 ∧
      |(37 / 18 : ℚ) - 2056 / 1000| < 5 / 10000 ∧
      (1 : ℚ) < total_size (1 / 10) [15 / 100, 12 / 100, 18 / 100] ∧
      adj_factor 1 (total_size (1 / 10) [15 / 100, 12 / 100, 18 / 100]) = 18 / 37 ∧
      |(18 / 37 : ℚ) - 4865 / 10000| < 5 / 10000 ∧
      constrained_sizes (1 / 10) 1 [15 / 100, 12 / 100, 18 / 100] =
        [12 / 37, 15 / 37, 10 / 37] ∧
      (|(12 / 37 : ℚ) - 3244 / 10000| < 5 / 10000 ∧
        |(15 / 37 : ℚ) - 4054 / 10000| < 5 / 10000 ∧
        |(10 / 37 : ℚ) - 2705 / 10000| < 5 / 10000) ∧
      sampleBars.map AssetBar.ann_vol = [15 / 100, 12 / 100, 18 / 100] ∧
      sampleBars.map AssetBar.price = [18376 / 100, 17111 / 100, 16468 / 100] ∧
      target_positions sourceConfig 50000 sampleBars = [88, 118, 82] := by
  have habs : ∀ x y e : ℚ, x - y < e → y - x < e → |x - y| < e := by
    intro x y e h1 h2
    rw [abs_lt]; constructor <;> linarith
  refine ⟨?_, ⟨?_, ?_, ?_⟩, ?_, ?_, ?_, ?_, ?_, ?_, ⟨?_, ?_, ?_⟩, rfl, rfl, ?_⟩
  · norm_num [theo_sizes, theo_size]
  · apply habs <;> norm_num
  · apply habs <;> norm_num
  · apply habs <;> norm_num
  · norm_num [total_size, theo_sizes, theo_size]
  · apply habs <;> norm_num
  · norm_num [total_size, theo_sizes, theo_size]
  · norm_num [adj_factor, total_size, theo_sizes, theo_size]
  · apply habs <;> norm_num
  · norm_num [constrained_sizes, adj_factor, total_size, theo_sizes, theo_size]
  · apply habs <;> norm_num
  · apply habs <;> norm_num
  · apply habs <;> norm_num
  · norm_num [target_positions, constrained_sizes, theo_sizes, theo_size, total_size,
      adj_factor, target_position, sampleBars, sourceConfig]

/-- Claim C8, as amended: in double arithmetic the target position of an asset
is the floor of the rounded quotient `fl(fl(total_exposure *
constrained_size) / price)` of line 255; it is a whole number `t` with
`t * price ≤ total_exposure * constrained_size * (1 + 2^-53)^2` and
`total_exposure * constrained_size * (1 - 2^-53)^2 < (t + 1) * price`, which
need not be the floor of the exact quotient; an exposure of 27000, a
constrained size of 0.40 and a price of 180 give 60.  The exposure is 0 or
between 2^-100 and 2^100, the price is between 2^-100 and 2^100, and the
other inputs are as in claim C1; on these inputs no rounded result of lines
207-237, and for this asset of line 255, leaves the normal range of a
double. -/
theorem target_position_fl_floor (cfg : Config) (total_exposure : ℚ)
    (assets : List AssetBar) (i : ℕ) (a : AssetBar) (cs : ℚ)
    (ha : assets[i]? = some a)
    (hcs : (constrained_sizes_fl cfg.VOL_TARGET cfg.MAX_LEVERAGE
      (assets.map AssetBar.ann_vol))[i]? = some cs)
    (hcap : total_exposure = 0 ∨ inRange total_exposure)
    (hprice : inRange a.price)
    (hvol : ∀ b ∈ assets, b.ann_vol = 0 ∨ inRange b.ann_vol)
    (hvt : inRange cfg.VOL_TARGET) (hml : inRange cfg.MAX_LEVERAGE)
    (hlen : assets.length ≤ 2 ^ 20) :
    (∃ t : ℤ, (target_positions_fl cfg total_exposure assets)[i]? = some t ∧
        t = ⌊fl (fl (total_exposure * cs) / a.price)⌋ ∧
        (t : ℚ) * a.price ≤ total_exposure * cs * (1 + 1 / 2 ^ 53) ^ 2 ∧
        total_exposure * cs * (1 - 1 / 2 ^ 53) ^ 2 < ((t : ℚ) + 1) * a.price) ∧
      target_position_fl 27000 (fl (40 / 100)) 180 = 60 ∧
      constrained_sizes_fl_checked cfg.VOL_TARGET cfg.MAX_LEVERAGE
          (assets.map AssetBar.ann_vol) =
        some (constrained_sizes_fl cfg.VOL_TARGET cfg.MAX_LEVERAGE
          (assets.map AssetBar.ann_vol)) ∧
      target_position_fl_checked total_exposure cs a.price =
        some (target_position_fl total_exposure cs a.price) := by
  have hvol2 : ∀ v ∈ assets.map AssetBar.ann_vol, v = 0 ∨ inRange v := by
    intro v hv
    rw [List.mem_map] at hv
    obtain ⟨b, hb, rfl⟩ := hv
    exact hvol b hb
  have hck := constrained_sizes_fl_checked_eq cfg.VOL_TARGET cfg.MAX_LEVERAGE
    (assets.map AssetBar.ann_vol) hvt hml hvol2 (by rw [List.length_map]; exact hlen)
  have hrange := target_position_fl_range total_exposure cs a.price hcap
    (hck.2 cs (List.getElem?_mem hcs)) hprice
  have hav : ∀ v ∈ assets.map AssetBar.ann_vol, 0 ≤ v :=
    fun v hv => nonneg_of_zero_or_inRange (hvol2 v hv)
  have hf := (adj_factor_fl_bounds cfg.MAX_LEVERAGE
    (total_size_fl cfg.VOL_TARGET (assets.map AssetBar.ann_vol)) (inRange_pos hml)
    (total_size_fl_nonneg _ _ (inRange_pos hvt).le hav)).1
  rw [constrained_sizes_fl_getElem?] at hcs
  simp only [List.getElem?_map, ha, Option.map_some', Option.some.injEq] at hcs
  have hcs0 : 0 ≤ cs := by
    rw [← hcs]
    exact fl_nonneg (mul_nonneg (theo_size_fl_nonneg _ _ (inRange_pos hvt).le
      (nonneg_of_zero_or_inRange (hvol a (List.getElem?_mem ha)))) hf.le)
  have hb := target_position_fl_bounds total_exposure cs a.price
    (mul_nonneg (nonneg_of_zero_or_inRange hcap) hcs0) (inRange_pos hprice)
  refine ⟨?_, ?_, hck.1, hrange⟩
  · refine ⟨target_position_fl total_exposure cs a.price, ?_, rfl, hb.1, hb.2⟩
    rw [target_positions_fl_getElem? cfg total_exposure assets i a ha, hcs]
  · norm_num [target_position_fl]

theorem target_position_fl_floor_witness :
    [roundedPriceBar][0]? = some roundedPriceBar ∧
      (constrained_sizes_fl sourceConfig_fl.VOL_TARGET sourceConfig_fl.MAX_LEVERAGE
        ([roundedPriceBar].map AssetBar.ann_vol))[0]? = some 1 ∧
      ((8234 : ℚ) = 0 ∨ inRange 8234) ∧ inRange roundedPriceBar.price ∧
      (∀ b ∈ [roundedPriceBar], b.ann_vol = 0 ∨ inRange b.ann_vol) ∧
      inRange sourceConfig_fl.VOL_TARGET ∧ inRange sourceConfig_fl.MAX_LEVERAGE ∧
      [roundedPriceBar].length ≤ 2 ^ 20 ∧
      (∃ t : ℤ, (target_positions_fl sourceConfig_fl 8234 [roundedPriceBar])[0]? = some t ∧
        t = ⌊fl (fl (8234 * 1) / roundedPriceBar.price)⌋ ∧
        (t : ℚ) * roundedPriceBar.price ≤ 8234 * 1 * (1 + 1 / 2 ^ 53) ^ 2 ∧
        8234 * 1 * (1 - 1 / 2 ^ 53) ^ 2 < ((t : ℚ) + 1) * roundedPriceBar.price) :=
  have hcs : (constrained_sizes_fl sourceConfig_fl.VOL_TARGET sourceConfig_fl.MAX_LEVERAGE
      ([roundedPriceBar].map AssetBar.ann_vol))[0]? = some 1 := by
    rw [List.map_singleton, roundedPriceBar_targets.1]
    rfl
  have hE : (8234 : ℚ) = 0 ∨ inRange 8234 := Or.inr (by norm_num [inRange])
  have hp : inRange roundedPriceBar.price := by
    norm_num [inRange, roundedPriceBar]
  have hvol : ∀ b ∈ [roundedPriceBar], b.ann_vol = 0 ∨ inRange b.ann_vol := by
    intro b hb
    rw [List.mem_singleton] at hb
    subst hb
    exact Or.inr inRange_vol_target
  have hvt : inRange sourceConfig_fl.VOL_TARGET := inRange_vol_target
  have hml : inRange sourceConfig_fl.MAX_LEVERAGE := inRange_one
  ⟨rfl, hcs, hE, hp, hvol, hvt, hml, by simp,
    (target_position_fl_floor sourceConfig_fl 8234 [roundedPriceBar] 0 roundedPriceBar 1
      rfl hcs hE hp hvol hvt hml (by simp)).1⟩

/-- Counterexample to claim C8 as stated: for an exposure of 8234, a constrained
size of 1 and the double nearest the price 164.68, the exact quotient is
below 50 and its floor is 49, but the quotient of line 255 rounds to 50 and
the target position is 50. -/
theorem target_position_above_exact_floor :
    constrained_sizes_fl sourceConfig_fl.VOL_TARGET sourceConfig_fl.MAX_LEVERAGE
        [roundedPriceBar.ann_vol] = [1] ∧
      0 < roundedPriceBar.price ∧
      target_positions_fl sourceConfig_fl 8234 [roundedPriceBar] = [50] ∧
      ⌊(8234 : ℚ) * 1 / roundedPriceBar.price⌋ = 49 := by
  refine ⟨roundedPriceBar_targets.1, ?_, roundedPriceBar_targets.2, ?_⟩
  · norm_num [roundedPriceBar]
  · norm_num [roundedPriceBar]

/-- Claim C10: with a non-negative exposure, positive prices, non-negative
volatilities and a configuration whose volatility target and maximal leverage
are positive, every target position is non-negative; hence every `exitLong`
placed by `run`, in either rebalancing mode, is for at most the current
position, and the position left after it is non-negative. -/
theorem long_only (cfg : Config) (total_exposure : ℚ)
    (tdm numOpenLong numPendingLong : ℕ) (assets : List AssetBar)
    (hcap : 0 ≤ total_exposure) (hprice : ∀ a ∈ assets, 0 < a.price)
    (hvol : ∀ a ∈ assets, 0 ≤ a.ann_vol)
    (_hcur : ∀ a ∈ assets, 0 ≤ current_position a.trades)
    (hvt : 0 < cfg.VOL_TARGET) (hml : 0 < cfg.MAX_LEVERAGE) :
    (∀ (i : ℕ) (t : ℤ), (target_positions cfg total_exposure assets)[i]? = some t →
        0 ≤ t) ∧
      (∀ (i : ℕ) (a : AssetBar) (r : Rebalance) (lots : ℤ), assets[i]? = some a →
        (run cfg total_exposure tdm numOpenLong numPendingLong assets)[i]? =
          some (some r) →
        r.order = some (Order.exitLong lots) →
        lots ≤ current_position a.trades ∧
          0 ≤ current_position a.trades + (Order.exitLong lots).signedQuantity) := by
  have htgt := target_positions_nonneg cfg total_exposure assets hcap hprice hvol
    hvt.le hml.le
  refine ⟨htgt, ?_⟩
  intro i a r lots ha hr hord
  obtain ⟨target, ht, rfl⟩ := run_getElem?_some cfg total_exposure tdm numOpenLong
    numPendingLong assets i a r ha hr
  obtain ⟨_, hl⟩ := rebalance_exitLong cfg _ _ _ hord
  have h0 := htgt i target ht
  simp only [Order.signedQuantity]
  omega


theorem long_only_witness :
    (0 : ℚ) ≤ 50000 ∧ (∀ a ∈ sampleBars, 0 < a.price) ∧
      (∀ a ∈ sampleBars, 0 ≤ a.ann_vol) ∧
      (∀ a ∈ sampleBars, 0 ≤ current_position a.trades) ∧
      0 < monthlyConfig.VOL_TARGET ∧ 0 < monthlyConfig.MAX_LEVERAGE ∧
      (run monthlyConfig 50000 1 1 0 sampleBars)[1]? =
        some (some { commission := some (1 / 2), order := some (Order.exitLong 2) }) ∧
      (2 : ℤ) ≤ 120 ∧ (0 : ℤ) ≤ 120 + (Order.exitLong 2).signedQuantity :=
  have hprice : ∀ a ∈ sampleBars, 0 < a.price := by
    intro a ha
    simp [sampleBars] at ha
    rcases ha with rfl | rfl | rfl <;> norm_num
  have hvol : ∀ a ∈ sampleBars, 0 ≤ a.ann_vol := by
    intro a ha
    simp [sampleBars] at ha
    rcases ha with rfl | rfl | rfl <;> norm_num
  have hcur : ∀ a ∈ sampleBars, 0 ≤ current_position a.trades := by
    intro a ha
    simp [sampleBars] at ha
    rcases ha with rfl | rfl | rfl <;> simp [current_position]
  have hvt : 0 < monthlyConfig.VOL_TARGET := by norm_num [monthlyConfig, sourceConfig]
  have hml : 0 < monthlyConfig.MAX_LEVERAGE := by norm_num [monthlyConfig, sourceConfig]
  have hrun : (run monthlyConfig 50000 1 1 0 sampleBars)[1]? =
      some (some { commission := some (1 / 2), order := some (Order.exitLong 2) }) := by
    norm_num [run, target_positions, constrained_sizes, theo_sizes, theo_size, total_size,
      adj_factor, target_position, sampleBars, sourceConfig, monthlyConfig,
      calendar_trigger, rebalance, commission, current_position]
  ⟨by norm_num, hprice, hvol, hcur, hvt, hml, hrun,
    (long_only monthlyConfig 50000 1 1 0 sampleBars (by norm_num) hprice hvol hcur hvt
      hml).2 1 _ _ 2 rfl hrun rfl⟩

/-- Claim C11: the claim says that the division of line 265 is evaluated only for
a non-zero target.  The code evaluates it for every asset: for an asset with
zero volatility and no position the target is 0 and the division is `0/0`,
which is not a number; for a target of 0 with 5 shares held it is `5/0`, an
infinity; and for a target of 0 the checked division always fails, the result
never being a finite number. -/
theorem zero_target_division_unguarded :
    target_positions sourceConfig 50000 [flatBar] = [0] ∧
      tracking_errors sourceConfig 50000 [flatBar] = [FVal.nan] ∧
      target_positions sourceConfig 100 [smallHeldBar] = [0] ∧
      tracking_errors sourceConfig 100 [smallHeldBar] = [FVal.posInf] ∧
      (∀ current : ℤ, tracking_error_checked 0 current = none) ∧
      (∀ (q : ℚ) (current : ℤ), tracking_error 0 current ≠ FVal.fin q) := by
  refine ⟨?_, ?_, ?_, ?_, ?_, ?_⟩
  · norm_num [target_positions, constrained_sizes, theo_sizes, theo_size, total_size,
      adj_factor, target_position, flatBar, sourceConfig]
  · norm_num [tracking_errors, target_positions, constrained_sizes, theo_sizes, theo_size,
      total_size, adj_factor, target_position, flatBar, sourceConfig, tracking_error,
      fdiv, position_diff, toInt32, current_position]
  · norm_num [target_positions, constrained_sizes, theo_sizes, theo_size, total_size,
      adj_factor, target_position, smallHeldBar, sourceConfig]
  · norm_num [tracking_errors, target_positions, constrained_sizes, theo_sizes, theo_size,
      total_size, adj_factor, target_position, smallHeldBar, sourceConfig, tracking_error,
      fdiv, position_diff, toInt32, current_position]
  · intro current
    exact (tracking_error_zero_target current).2
  · intro q current
    exact (tracking_error_zero_target current).1 q

/-- Claim C12: the volatility estimate is the square root of 252 times the
population variance of the most recent `VOL_LOOKBACK` simple returns; the
variance is never negative, so for a square root that is non-negative on
non-negative numbers the estimate is non-negative; and for a flat series of
positive closes the variance is 0 and, the square root of 0 being 0, so is the
estimate. -/
theorem volatility_estimate (sqrt : ℚ → ℚ) (closes : List ℚ) (VOL_LOOKBACK : ℕ)
    (hsqrt_nonneg : ∀ x : ℚ, 0 ≤ x → 0 ≤ sqrt x) (hsqrt_zero : sqrt 0 = 0) :
    ann_vol sqrt closes VOL_LOOKBACK =
        sqrt (Moment2 (ROCP closes) VOL_LOOKBACK * 252) ∧
      0 ≤ Moment2 (ROCP closes) VOL_LOOKBACK ∧
      0 ≤ ann_vol sqrt closes VOL_LOOKBACK ∧
      (∀ p : ℚ, 0 < p → (∀ c ∈ closes, c = p) →
        Moment2 (ROCP closes) VOL_LOOKBACK = 0 ∧ ann_vol sqrt closes VOL_LOOKBACK = 0) := by
  have hvar := Moment2_nonneg (ROCP closes) VOL_LOOKBACK
  refine ⟨rfl, hvar, hsqrt_nonneg _ (mul_nonneg hvar (by norm_num)), ?_⟩
  intro p hp hflat
  have h0 := Moment2_of_all_zero (ROCP closes) VOL_LOOKBACK (ROCP_flat closes p hp hflat)
  refine ⟨h0, ?_⟩
  unfold ann_vol
  rw [h0, zero_mul, hsqrt_zero]

theorem volatility_estimate_witness :
    (∀ x : ℚ, 0 ≤ x → 0 ≤ sqrtDigits x) ∧ sqrtDigits 0 = 0 ∧
      (0 : ℚ) < 100 ∧ (∀ c ∈ ([100, 100, 100, 100] : List ℚ), c = 100) ∧
      (Moment2 (ROCP [100, 100, 100, 100]) 2 = 0 ∧
        ann_vol sqrtDigits [100, 100, 100, 100] 2 = 0) ∧
      Moment2 (ROCP [100, 110, 99, 99]) 2 = 1 / 400 :=
  have hflat : ∀ c ∈ ([100, 100, 100, 100] : List ℚ), c = 100 := by
    intro c hc
    simpa using hc
  ⟨fun x _ => sqrtDigits_nonneg x, sqrtDigits_zero, by norm_num, hflat,
    (volatility_estimate sqrtDigits [100, 100, 100, 100] 2
      (fun x _ => sqrtDigits_nonneg x) sqrtDigits_zero).2.2.2 100 (by norm_num) hflat,
    by norm_num [Moment2, ROCP, mostRecent]⟩

/-- Claim C13, as amended: in every data line of the log the column
`TradingDaysUntilRebal` is 0 when the trading day of the month is 1 and
`tom - tdm + 1` otherwise, whatever the rebalancing mode; the column
`TrackingErrorThreshold` is 0 when `TRACKING_ERROR_THRESHOLD` is not defined
and the threshold when it is; and no data line is written during the
lookback period. -/
theorem log_record_fields (cfg : Config) (total_exposure : ℚ)
    (initrun firsttime fileEmpty lookback : Bool) (tdm tom : ℕ)
    (assets : List AssetBar) (r : LogRecord)
    (hr : LogLine.record r ∈
      run_log cfg total_exposure initrun firsttime fileEmpty lookback tdm tom assets) :
    r.tradingDaysUntilRebal = (if tdm = 1 then 0 else (tom : ℤ) - (tdm : ℤ) + 1) ∧
      (tdm = 1 → r.tradingDaysUntilRebal = 0) ∧
      (cfg.TRACKING_ERROR_THRESHOLD = none → r.tracking_error_threshold = 0) ∧
      (∀ threshold, cfg.TRACKING_ERROR_THRESHOLD = some threshold →
        r.tracking_error_threshold = threshold) ∧
      lookback = false := by
  obtain ⟨h1, h2, h3⟩ := run_log_loop_record cfg initrun fileEmpty lookback tdm tom r _ _ hr
  refine ⟨h1, ?_, ?_, ?_, h3⟩
  · intro h
    rw [h1, if_pos h]
  · intro h
    rw [h2, logged_threshold, h]
  · intro threshold h
    rw [h2, logged_threshold, h]

theorem log_record_fields_witness :
    LogLine.record sampleRecord ∈
        run_log monthlyConfig 50000 false true false false 1 21 sampleBars ∧
      sampleRecord.tradingDaysUntilRebal = 0 ∧
      sampleRecord.tracking_error_threshold = 0 :=
  have hmem : LogLine.record sampleRecord ∈
      run_log monthlyConfig 50000 false true false false 1 21 sampleBars :=
    List.getElem?_mem run_log_calendar_sample
  ⟨hmem,
    (log_record_fields monthlyConfig 50000 false true false false 1 21 sampleBars
      sampleRecord hmem).2.1 rfl,
    (log_record_fields monthlyConfig 50000 false true false false 1 21 sampleBars
      sampleRecord hmem).2.2.1 rfl⟩

/-- Counterexample to claim C13 as stated: with `TRACKING_ERROR_THRESHOLD`
defined (the mode is not the calendar one), on trading day 2 of a month of 21
trading days, the column `TradingDaysUntilRebal` of the line logged for the
first asset is 20, not 0. -/
theorem log_days_until_rebal_tracking_mode :
    ∃ r : LogRecord,
      (run_log sourceConfig 50000 false true false false 2 21 sampleBars)[0]? =
          some (LogLine.record r) ∧
        sourceConfig.TRACKING_ERROR_THRESHOLD = some (1 / 10) ∧
        r.tradingDaysUntilRebal = 20 ∧ r.tradingDaysUntilRebal ≠ 0 := by
  refine ⟨{ sampleRecord with tradingDaysUntilRebal := 20,
                              tracking_error_threshold := 1 / 10 }, ?_, rfl, rfl, by decide⟩
  norm_num [run_log, run_log_loop, writeLog, logged_threshold, target_positions,
    constrained_sizes, theo_sizes, theo_size, total_size, adj_factor, target_position,
    sampleBars, sourceConfig, sampleRecord, tracking_error, fdiv,
    position_diff, toInt32, current_position]

/-- Claim C14, as amended: in double arithmetic, when scaling is applied, for any
two assets `i` and `j` with non-zero theoretical sizes, each of the ratios
`constrained_size[i] / theo_size[i]` and `constrained_size[j] / theo_size[j]`
is within `2^-53 * adj_factor` of the adjustment factor, so that the two
differ by at most `2^-52 * adj_factor`; the adjustment factor is the rounded
quotient `fl(MAX_LEVERAGE / total_size)` (inputs as in claim C1, on which no
rounded result of lines 207-237 leaves the normal range of a double). -/
theorem scale_factor_uniform_fl (VOL_TARGET MAX_LEVERAGE : ℚ) (ann_vol : List ℚ)
    (hvol : ∀ v ∈ ann_vol, v = 0 ∨ inRange v) (hvt : inRange VOL_TARGET)
    (hml : inRange MAX_LEVERAGE) (hlen : ann_vol.length ≤ 2 ^ 20)
    (i j : ℕ) (ci cj ti tj : ℚ)
    (hscaled : MAX_LEVERAGE < total_size_fl VOL_TARGET ann_vol)
    (hci : (constrained_sizes_fl VOL_TARGET MAX_LEVERAGE ann_vol)[i]? = some ci)
    (hcj : (constrained_sizes_fl VOL_TARGET MAX_LEVERAGE ann_vol)[j]? = some cj)
    (hti : (theo_sizes_fl VOL_TARGET ann_vol)[i]? = some ti)
    (htj : (theo_sizes_fl VOL_TARGET ann_vol)[j]? = some tj)
    (hti0 : ti ≠ 0) (htj0 : tj ≠ 0) :
    |ci / ti - adj_factor_fl MAX_LEVERAGE (total_size_fl VOL_TARGET ann_vol)| ≤
        1 / 2 ^ 53 * adj_factor_fl MAX_LEVERAGE (total_size_fl VOL_TARGET ann_vol) ∧
      |cj / tj - adj_factor_fl MAX_LEVERAGE (total_size_fl VOL_TARGET ann_vol)| ≤
        1 / 2 ^ 53 * adj_factor_fl MAX_LEVERAGE (total_size_fl VOL_TARGET ann_vol) ∧
      |ci / ti - cj / tj| ≤
        1 / 2 ^ 52 * adj_factor_fl MAX_LEVERAGE (total_size_fl VOL_TARGET ann_vol) ∧
      adj_factor_fl MAX_LEVERAGE (total_size_fl VOL_TARGET ann_vol) =
        fl (MAX_LEVERAGE / total_size_fl VOL_TARGET ann_vol) ∧
      constrained_sizes_fl_checked VOL_TARGET MAX_LEVERAGE ann_vol =
        some (constrained_sizes_fl VOL_TARGET MAX_LEVERAGE ann_vol) := by
  have hfac : adj_factor_fl MAX_LEVERAGE (total_size_fl VOL_TARGET ann_vol) =
      fl (MAX_LEVERAGE / total_size_fl VOL_TARGET ann_vol) := by
    simp [adj_factor_fl, hscaled]
  have hck :=
    (constrained_sizes_fl_checked_eq VOL_TARGET MAX_LEVERAGE ann_vol hvt hml hvol hlen).1
  have hav : ∀ v ∈ ann_vol, 0 ≤ v := fun v hv => nonneg_of_zero_or_inRange (hvol v hv)
  have hf := (adj_factor_fl_bounds MAX_LEVERAGE (total_size_fl VOL_TARGET ann_vol)
    (inRange_pos hml) (total_size_fl_nonneg _ _ (inRange_pos hvt).le hav)).1
  rw [constrained_sizes_fl_getElem?] at hci hcj
  rw [theo_sizes_fl_getElem?] at hti htj
  cases hi : ann_vol[i]? with
  | none => simp [hi] at hti
  | some vi =>
    cases hj : ann_vol[j]? with
    | none => simp [hj] at htj
    | some vj =>
      simp only [hi, hj, Option.map_some', Option.some.injEq] at hci hcj hti htj
      subst hci hcj hti htj
      have hi0 := theo_size_fl_nonneg VOL_TARGET vi (inRange_pos hvt).le
        (hav vi (List.getElem?_mem hi))
      have hj0 := theo_size_fl_nonneg VOL_TARGET vj (inRange_pos hvt).le
        (hav vj (List.getElem?_mem hj))
      have h1 := ratio_fl _ _ (lt_of_le_of_ne hi0 (Ne.symm hti0)) hf.le
      have h2 := ratio_fl _ _ (lt_of_le_of_ne hj0 (Ne.symm htj0)) hf.le
      refine ⟨h1, h2, ?_, hfac, hck⟩
      have h3 := abs_sub_le
        (fl (theo_size_fl VOL_TARGET vi *
          adj_factor_fl MAX_LEVERAGE (total_size_fl VOL_TARGET ann_vol)) /
            theo_size_fl VOL_TARGET vi)
        (adj_factor_fl MAX_LEVERAGE (total_size_fl VOL_TARGET ann_vol))
        (fl (theo_size_fl VOL_TARGET vj *
          adj_factor_fl MAX_LEVERAGE (total_size_fl VOL_TARGET ann_vol)) /
            theo_size_fl VOL_TARGET vj)
      rw [abs_sub_comm (adj_factor_fl MAX_LEVERAGE (total_size_fl VOL_TARGET ann_vol))] at h3
      linarith

theorem scale_factor_uniform_fl_witness :
    (∀ v ∈ sampleVols_fl, v = 0 ∨ inRange v) ∧ inRange (fl (1 / 10)) ∧ inRange 1 ∧
      sampleVols_fl.length ≤ 2 ^ 20 ∧
      (1 : ℚ) < total_size_fl (fl (1 / 10)) sampleVols_fl ∧
      (constrained_sizes_fl (fl (1 / 10)) 1 sampleVols_fl)[0]? =
        some (5842507624696861 / 18014398509481984) ∧
      (constrained_sizes_fl (fl (1 / 10)) 1 sampleVols_fl)[1]? =
        some (7303134530871075 / 18014398509481984) ∧
      (theo_sizes_fl (fl (1 / 10)) sampleVols_fl)[0]? =
        some (3002399751580331 / 4503599627370496) ∧
      (theo_sizes_fl (fl (1 / 10)) sampleVols_fl)[1]? =
        some (7505999378950827 / 9007199254740992) ∧
      (3002399751580331 / 4503599627370496 : ℚ) ≠ 0 ∧
      (7505999378950827 / 9007199254740992 : ℚ) ≠ 0 ∧
      |(5842507624696861 / 18014398509481984 : ℚ) / (3002399751580331 / 4503599627370496) -
          7303134530871075 / 18014398509481984 / (7505999378950827 / 9007199254740992)| ≤
        1 / 2 ^ 52 * adj_factor_fl 1 (total_size_fl (fl (1 / 10)) sampleVols_fl) :=
  have htot : (1 : ℚ) < total_size_fl (fl (1 / 10)) sampleVols_fl := by
    rw [sampleVols_fl_sizes.2.1]
    norm_num
  have hc0 : (constrained_sizes_fl (fl (1 / 10)) 1 sampleVols_fl)[0]? =
      some (5842507624696861 / 18014398509481984) := by
    rw [sampleVols_fl_sizes.2.2.2]
    rfl
  have hc1 : (constrained_sizes_fl (fl (1 / 10)) 1 sampleVols_fl)[1]? =
      some (7303134530871075 / 18014398509481984) := by
    rw [sampleVols_fl_sizes.2.2.2]
    rfl
  have ht0 : (theo_sizes_fl (fl (1 / 10)) sampleVols_fl)[0]? =
      some (3002399751580331 / 4503599627370496) := by
    rw [sampleVols_fl_sizes.1]
    rfl
  have ht1 : (theo_sizes_fl (fl (1 / 10)) sampleVols_fl)[1]? =
      some (7505999378950827 / 9007199254740992) := by
    rw [sampleVols_fl_sizes.1]
    rfl
  ⟨sampleVols_fl_inRange, inRange_vol_target, inRange_one, by simp [sampleVols_fl],
    htot, hc0, hc1, ht0, ht1, by norm_num, by norm_num,
    (scale_factor_uniform_fl (fl (1 / 10)) 1 sampleVols_fl sampleVols_fl_inRange
      inRange_vol_target inRange_one (by simp [sampleVols_fl]) 0 1 _ _ _ _ htot hc0 hc1
      ht0 ht1 (by norm_num) (by norm_num)).2.2.1⟩

/-- Counterexample to claim C14 as stated: for the volatilities 0.15, 0.12 and
0.18 scaling is applied, the theoretical sizes of the first two assets are
not 0, and `constrained_size[0] / theo_size[1]` is not
`constrained_size[1] / theo_size[0]`. -/
theorem crossed_ratio_law_fails :
    ∃ ci cj ti tj : ℚ,
      (1 : ℚ) < total_size_fl (fl (1 / 10)) sampleVols_fl ∧
        (constrained_sizes_fl (fl (1 / 10)) 1 sampleVols_fl)[0]? = some ci ∧
        (constrained_sizes_fl (fl (1 / 10)) 1 sampleVols_fl)[1]? = some cj ∧
        (theo_sizes_fl (fl (1 / 10)) sampleVols_fl)[0]? = some ti ∧
        (theo_sizes_fl (fl (1 / 10)) sampleVols_fl)[1]? = some tj ∧
        ti ≠ 0 ∧ tj ≠ 0 ∧ ci / tj ≠ cj / ti := by
  refine ⟨5842507624696861 / 18014398509481984, 7303134530871075 / 18014398509481984,
    3002399751580331 / 4503599627370496, 7505999378950827 / 9007199254740992,
    ?_, ?_, ?_, ?_, ?_, ?_, ?_, ?_⟩
  · rw [sampleVols_fl_sizes.2.1]
    norm_num
  · rw [sampleVols_fl_sizes.2.2.2]
    rfl
  · rw [sampleVols_fl_sizes.2.2.2]
    rfl
  · rw [sampleVols_fl_sizes.1]
    rfl
  · rw [sampleVols_fl_sizes.1]
    rfl
  · norm_num
  · norm_num
  · norm_num

/-- Claim C15, as amended: in double arithmetic the inverse-volatility weighting
is non-increasing: for a volatility target and volatilities `a < b`, all
between 2^-100 and 2^100, the theoretical size computed for `b` is at most
the one computed for `a`; two neighbouring doubles can get the same size.  On
these inputs neither quotient leaves the normal range of a double. -/
theorem theo_size_fl_nonincreasing (VOL_TARGET a b : ℚ) (hvt : inRange VOL_TARGET)
    (ha : inRange a) (hb : inRange b) (hab : a < b) :
    theo_size_fl VOL_TARGET b ≤ theo_size_fl VOL_TARGET a ∧
      theo_size_fl_checked VOL_TARGET a = some (theo_size_fl VOL_TARGET a) ∧
      theo_size_fl_checked VOL_TARGET b = some (theo_size_fl VOL_TARGET b) :=
  ⟨theo_size_fl_anti VOL_TARGET a b (inRange_pos hvt) (inRange_pos ha) hab,
    (theo_size_fl_range VOL_TARGET a hvt (Or.inr ha)).1,
    (theo_size_fl_range VOL_TARGET b hvt (Or.inr hb)).1⟩

theorem theo_size_fl_nonincreasing_witness :
    inRange (fl (1 / 10)) ∧ inRange (fl (12 / 100)) ∧ inRange (fl (15 / 100)) ∧
      fl (12 / 100) < fl (15 / 100) ∧
      theo_size_fl (fl (1 / 10)) (fl (15 / 100)) ≤
        theo_size_fl (fl (1 / 10)) (fl (12 / 100)) :=
  have ha : inRange (fl (12 / 100)) := by norm_num [inRange]
  have hb : inRange (fl (15 / 100)) := by norm_num [inRange]
  have hab : fl (12 / 100) < fl (15 / 100) := by norm_num
  ⟨inRange_vol_target, ha, hb, hab,
    (theo_size_fl_nonincreasing (fl (1 / 10)) (fl (12 / 100)) (fl (15 / 100))
      inRange_vol_target ha hb hab).1⟩

/-- Counterexample to claim C15 as stated: the double nearest 0.19 and the double
that follows it are two volatilities `0 < a < b` for which line 221, with the
volatility target 0.1, computes the same theoretical size. -/
theorem theo_size_ties :
    0 < fl (1 / 10) ∧ 0 < vol19 ∧ vol19 < vol19next ∧
      fl vol19 = vol19 ∧ fl vol19next = vol19next ∧
      theo_size_fl (fl (1 / 10)) vol19 = 4740631186705785 / 9007199254740992 ∧
      theo_size_fl (fl (1 / 10)) vol19next = 4740631186705785 / 9007199254740992 ∧
      ¬ theo_size_fl (fl (1 / 10)) vol19next < theo_size_fl (fl (1 / 10)) vol19 := by
  have h1 : theo_size_fl (fl (1 / 10)) vol19 = 4740631186705785 / 9007199254740992 := by
    norm_num [theo_size_fl, vol19]
  have h2 : theo_size_fl (fl (1 / 10)) vol19next =
      4740631186705785 / 9007199254740992 := by
    norm_num [theo_size_fl, vol19next]
  refine ⟨inRange_pos inRange_vol_target, ?_, ?_, ?_, ?_, h1, h2, ?_⟩
  · norm_num [vol19]
  · norm_num [vol19, vol19next]
  · exact fl_fl (by norm_num)
  · norm_num [vol19next]
  · rw [h1, h2]
    exact lt_irrefl _

/-- Claim C16, as amended: in double arithmetic the adjustment factor only scales
down.  When the total theoretical size is at most the maximal leverage the
factor is 1 and every constrained size is the theoretical size; when it is
above, the factor is the rounded quotient `fl(MAX_LEVERAGE / total_size)` and
the constrained sizes add up to the maximal leverage up to rounding, between
`MAX_LEVERAGE * (1 - 2^-52)^(n + 2)` and `MAX_LEVERAGE * (1 + 2^-52)^(n + 2)`
for `n` assets; the factor lies in `(0, 1]` (inputs as in claim C1, on which
no rounded result of lines 207-237 leaves the normal range of a double). -/
theorem adj_factor_fl_scales_down (VOL_TARGET MAX_LEVERAGE : ℚ) (ann_vol : List ℚ)
    (hvol : ∀ v ∈ ann_vol, v = 0 ∨ inRange v) (hvt : inRange VOL_TARGET)
    (hml : inRange MAX_LEVERAGE) (hlen : ann_vol.length ≤ 2 ^ 20) :
    (total_size_fl VOL_TARGET ann_vol ≤ MAX_LEVERAGE →
        adj_factor_fl MAX_LEVERAGE (total_size_fl VOL_TARGET ann_vol) = 1 ∧
          constrained_sizes_fl VOL_TARGET MAX_LEVERAGE ann_vol =
            theo_sizes_fl VOL_TARGET ann_vol) ∧
      (MAX_LEVERAGE < total_size_fl VOL_TARGET ann_vol →
        adj_factor_fl MAX_LEVERAGE (total_size_fl VOL_TARGET ann_vol) =
            fl (MAX_LEVERAGE / total_size_fl VOL_TARGET ann_vol) ∧
          MAX_LEVERAGE * (1 - 1 / 2 ^ 52) ^ (ann_vol.length + 2) ≤
            (constrained_sizes_fl VOL_TARGET MAX_LEVERAGE ann_vol).sum ∧
          (constrained_sizes_fl VOL_TARGET MAX_LEVERAGE ann_vol).sum ≤
            MAX_LEVERAGE * (1 + 1 / 2 ^ 52) ^ (ann_vol.length + 2)) ∧
      (0 < adj_factor_fl MAX_LEVERAGE (total_size_fl VOL_TARGET ann_vol) ∧
        adj_factor_fl MAX_LEVERAGE (total_size_fl VOL_TARGET ann_vol) ≤ 1) ∧
      constrained_sizes_fl_checked VOL_TARGET MAX_LEVERAGE ann_vol =
        some (constrained_sizes_fl VOL_TARGET MAX_LEVERAGE ann_vol) := by
  have hav : ∀ v ∈ ann_vol, 0 ≤ v := fun v hv => nonneg_of_zero_or_inRange (hvol v hv)
  have hvt0 := (inRange_pos hvt).le
  have hml0 := inRange_pos hml
  have hb := adj_factor_fl_bounds MAX_LEVERAGE (total_size_fl VOL_TARGET ann_vol) hml0
    (total_size_fl_nonneg _ _ hvt0 hav)
  refine ⟨fun h => constrained_sizes_fl_of_le _ _ _ hvt0 hav h, fun h => ⟨?_, ?_, ?_⟩,
    ⟨hb.1, hb.2.1⟩,
    (constrained_sizes_fl_checked_eq VOL_TARGET MAX_LEVERAGE ann_vol hvt hml hvol hlen).1⟩
  · simp [adj_factor_fl, h]
  · exact constrained_sizes_fl_sum_ge _ _ _ hvt0 hml0 hav h
  · exact constrained_sizes_fl_sum_le _ _ _ hvt0 hml0 hav

theorem adj_factor_fl_scales_down_witness :
    (∀ v ∈ roundingVols, v = 0 ∨ inRange v) ∧ inRange (fl (1 / 10)) ∧ inRange 1 ∧
      roundingVols.length ≤ 2 ^ 20 ∧
      (1 : ℚ) < total_size_fl (fl (1 / 10)) roundingVols ∧
      adj_factor_fl 1 (total_size_fl (fl (1 / 10)) roundingVols) =
        fl (1 / total_size_fl (fl (1 / 10)) roundingVols) ∧
      1 * (1 - 1 / 2 ^ 52) ^ (roundingVols.length + 2) ≤
        (constrained_sizes_fl (fl (1 / 10)) 1 roundingVols).sum ∧
      (constrained_sizes_fl (fl (1 / 10)) 1 roundingVols).sum ≤
        1 * (1 + 1 / 2 ^ 52) ^ (roundingVols.length + 2) :=
  have htot : (1 : ℚ) < total_size_fl (fl (1 / 10)) roundingVols := by
    rw [roundingVols_sizes.2.1]
    norm_num
  ⟨roundingVols_inRange, inRange_vol_target, inRange_one, by simp [roundingVols], htot,
    (adj_factor_fl_scales_down (fl (1 / 10)) 1 roundingVols roundingVols_inRange
      inRange_vol_target inRange_one (by simp [roundingVols])).2.1 htot⟩

/-- Counterexample to claim C16 as stated: for the volatilities 0.53, 0.11 and
0.36, the volatility target 0.1 and the maximal leverage 1, all of them
doubles, the total theoretical size is above the maximal leverage, and the
constrained sizes computed by lines 221-236 add up to `1 + 5/2^55`, which
is neither the maximal leverage nor `min(total_size, MAX_LEVERAGE)`. -/
theorem scaled_sum_not_exact :
    (∀ v ∈ roundingVols, 0 ≤ v) ∧ 0 < fl (1 / 10) ∧
      (1 : ℚ) < total_size_fl (fl (1 / 10)) roundingVols ∧
      (constrained_sizes_fl (fl (1 / 10)) 1 roundingVols).sum = 1 + 5 / 2 ^ 55 ∧
      (constrained_sizes_fl (fl (1 / 10)) 1 roundingVols).sum ≠ 1 ∧
      (constrained_sizes_fl (fl (1 / 10)) 1 roundingVols).sum ≠
        min (total_size_fl (fl (1 / 10)) roundingVols) 1 := by
  have hs := roundingVols_sizes.2.2.2
  have ht := roundingVols_sizes.2.1
  refine ⟨fun v hv => nonneg_of_zero_or_inRange (roundingVols_inRange v hv),
    inRange_pos inRange_vol_target, ?_, ?_, ?_, ?_⟩
  · rw [ht]
    norm_num
  · rw [hs]
    norm_num
  · rw [hs]
    norm_num
  · rw [hs, ht]
    norm_num

/-- Claim C17: the claim says that no order is placed for an asset with zero
volatility in either mode.  With `TRACKING_ERROR_THRESHOLD` defined this
holds: `rebalance` is never called for such an asset.  With it not defined,
on the first trading day of the month the asset of zero volatility held at
10 shares gets the target 0 and `exitLong` is called for its 10 shares. -/
theorem calendar_mode_trades_zero_volatility :
    flatHeldBar.ann_vol = 0 ∧ current_position flatHeldBar.trades = 10 ∧
      monthlyConfig.TRACKING_ERROR_THRESHOLD = none ∧
      run monthlyConfig 50000 1 1 0 [flatHeldBar] =
        [some { commission := some (1 / 10), order := some (Order.exitLong 10) }] ∧
      run sourceConfig 50000 1 1 0 [flatHeldBar] = [none] ∧
      (∀ (cfg : Config) (threshold total_exposure : ℚ) (tdm numOpenLong numPendingLong : ℕ)
          (assets : List AssetBar) (i : ℕ) (a : AssetBar),
        cfg.TRACKING_ERROR_THRESHOLD = some threshold → assets[i]? = some a →
        a.ann_vol = 0 →
        (run cfg total_exposure tdm numOpenLong numPendingLong assets)[i]? = some none) := by
  refine ⟨rfl, by simp [current_position, flatHeldBar], rfl, ?_, ?_, ?_⟩
  · norm_num [run, target_positions, constrained_sizes, theo_sizes, theo_size, total_size,
      adj_factor, target_position, flatHeldBar, sourceConfig, monthlyConfig,
      calendar_trigger, rebalance, commission, current_position]
  · norm_num [run, target_positions, constrained_sizes, theo_sizes, theo_size, total_size,
      adj_factor, target_position, flatHeldBar, sourceConfig, tracking_trigger]
  · intro cfg threshold total_exposure tdm numOpenLong numPendingLong assets i a hmode ha hvol
    rw [run_tracking_getElem? cfg threshold total_exposure tdm numOpenLong numPendingLong
      assets i a _ hmode ha (target_positions_getElem? cfg total_exposure assets i a ha)]
    simp [tracking_trigger, hvol]

/-- Claim C18, as amended: in double arithmetic, for an exposure that is 0 or
between 2^-100 and 2^100, prices between 2^-100 and 2^100 and the other
inputs as in claim C1, the notional value of the target portfolio, the sum of
`target_positions[i]` times the price, is at most `total_exposure *
MAX_LEVERAGE * (1 + 2^-52)^(n + 2) * (1 + 2^-53)^2` for `n` assets; for three
assets that is less than `total_exposure * MAX_LEVERAGE * (1 + 2^-49)`.  On
these inputs no rounded result of lines 207-255 leaves the normal range of a
double. -/
theorem target_notional_fl_bounded (cfg : Config) (total_exposure : ℚ)
    (assets : List AssetBar)
    (hcap : total_exposure = 0 ∨ inRange total_exposure)
    (hprice : ∀ a ∈ assets, inRange a.price)
    (hvol : ∀ a ∈ assets, a.ann_vol = 0 ∨ inRange a.ann_vol)
    (hvt : inRange cfg.VOL_TARGET) (hml : inRange cfg.MAX_LEVERAGE)
    (hlen : assets.length ≤ 2 ^ 20) :
    target_notional_fl cfg total_exposure assets ≤
        total_exposure * cfg.MAX_LEVERAGE *
          ((1 + 1 / 2 ^ 52) ^ (assets.length + 2) * (1 + 1 / 2 ^ 53) ^ 2) ∧
      (assets.length = 3 →
        target_notional_fl cfg total_exposure assets ≤
          total_exposure * cfg.MAX_LEVERAGE * (1 + 1 / 2 ^ 49)) ∧
      target_positions_fl_checked cfg total_exposure assets =
        some (target_positions_fl cfg total_exposure assets) := by
  have hcap0 := nonneg_of_zero_or_inRange hcap
  have h := target_notional_fl_le cfg total_exposure assets hcap0
    (fun a ha => inRange_pos (hprice a ha))
    (fun a ha => nonneg_of_zero_or_inRange (hvol a ha))
    (inRange_pos hvt).le (inRange_pos hml)
  refine ⟨h, ?_,
    target_positions_fl_checked_eq cfg total_exposure assets hcap hprice hvol hvt hml hlen⟩
  intro h3
  rw [h3] at h
  have hnum : ((1 : ℚ) + 1 / 2 ^ 52) ^ (3 + 2) * (1 + 1 / 2 ^ 53) ^ 2 ≤ 1 + 1 / 2 ^ 49 := by
    norm_num
  exact le_trans h (mul_le_mul_of_nonneg_left hnum
    (mul_nonneg hcap0 (inRange_pos hml).le))

theorem target_notional_fl_bounded_witness :
    ((10 : ℚ) ^ 17 = 0 ∨ inRange (10 ^ 17)) ∧ (∀ a ∈ unitPriceBars, inRange a.price) ∧
      (∀ a ∈ unitPriceBars, a.ann_vol = 0 ∨ inRange a.ann_vol) ∧
      inRange sourceConfig_fl.VOL_TARGET ∧ inRange sourceConfig_fl.MAX_LEVERAGE ∧
      unitPriceBars.length ≤ 2 ^ 20 ∧
      target_notional_fl sourceConfig_fl (10 ^ 17) unitPriceBars ≤
        10 ^ 17 * sourceConfig_fl.MAX_LEVERAGE * (1 + 1 / 2 ^ 49) :=
  have hE : (10 : ℚ) ^ 17 = 0 ∨ inRange (10 ^ 17) := Or.inr (by norm_num [inRange])
  have hprice : ∀ a ∈ unitPriceBars, inRange a.price := by
    intro a ha
    simp only [unitPriceBars, List.mem_cons, List.mem_singleton, List.not_mem_nil,
      or_false] at ha
    rcases ha with rfl | rfl | rfl <;> exact inRange_one
  have hvol : ∀ a ∈ unitPriceBars, a.ann_vol = 0 ∨ inRange a.ann_vol := by
    intro a ha
    simp only [unitPriceBars, List.mem_cons, List.mem_singleton, List.not_mem_nil,
      or_false] at ha
    right
    rcases ha with rfl | rfl | rfl <;> norm_num [inRange]
  have hvt : inRange sourceConfig_fl.VOL_TARGET := inRange_vol_target
  have hml : inRange sourceConfig_fl.MAX_LEVERAGE := inRange_one
  ⟨hE, hprice, hvol, hvt, hml, by simp [unitPriceBars],
    (target_notional_fl_bounded sourceConfig_fl (10 ^ 17) unitPriceBars hE hprice hvol
      hvt hml (by simp [unitPriceBars])).2.1 (by simp [unitPriceBars])⟩

/-- Counterexample to claim C18 as stated: for an exposure of 10^17, three assets
at the price 1 with the volatilities 0.53, 0.11 and 0.36, the volatility
target 0.1 and the maximal leverage 1, all of them doubles, the target
positions of line 255 add up to a notional value of 10^17 + 14, which is above
`total_exposure * MAX_LEVERAGE`. -/
theorem target_notional_exceeds :
    (0 : ℚ) ≤ 10 ^ 17 ∧ (∀ a ∈ unitPriceBars, 0 < a.price ∧ 0 ≤ a.ann_vol) ∧
      0 < sourceConfig_fl.VOL_TARGET ∧ 0 < sourceConfig_fl.MAX_LEVERAGE ∧
      target_positions_fl sourceConfig_fl (10 ^ 17) unitPriceBars =
        [13716660893661242, 66089366124004168, 20193972982334604] ∧
      target_notional_fl sourceConfig_fl (10 ^ 17) unitPriceBars = 10 ^ 17 + 14 ∧
      ¬ target_notional_fl sourceConfig_fl (10 ^ 17) unitPriceBars ≤
        10 ^ 17 * sourceConfig_fl.MAX_LEVERAGE := by
  have hn : target_notional_fl sourceConfig_fl (10 ^ 17) unitPriceBars = 10 ^ 17 + 14 := by
    unfold target_notional_fl
    rw [unitPriceBars_targets]
    norm_num [unitPriceBars]
  refine ⟨by norm_num, ?_, inRange_pos inRange_vol_target, inRange_pos inRange_one,
    unitPriceBars_targets, hn, ?_⟩
  · intro a ha
    simp only [unitPriceBars, List.mem_cons, List.mem_singleton, List.not_mem_nil,
      or_false] at ha
    rcases ha with rfl | rfl | rfl <;> norm_num
  · rw [hn]
    norm_num [sourceConfig_fl, sourceConfig]

end RiskPremia
